import Mathlib

/-!
Shallow embedding of `src/BLEDeviceProfiles.h` (namespace `BLEProfiles`).

Modelling conventions:
* C `uint8_t` buffers are `List ℕ` whose entries are below 256 wherever the
  C program can construct them.
* C `float` (IEEE-754 binary32) values are modelled as exact rationals `ℚ`;
  every C float operation rounds its exact rational result with `fround`,
  round-to-nearest-even at 24 significand bits with the subnormal cutoff at
  `2 ^ (-149)`.  Overflow to infinity and NaN payloads are outside the range
  exercised by any definition or theorem below.
* Conversions from the small integer types (`int8_t`..`uint16_t`, `int16_t`)
  to `float` are exact (magnitude below `2 ^ 24`), so they are embedded as
  direct casts; the `int32` to `float` conversion in the `UINT32` cases can
  round and is embedded through `fround`.
* The arithmetic inside `fround` is written with `mkRat`, `Rat.divInt` and
  integer operations (rather than the `ℚ` field operations) so that every
  concrete decode/encode evaluates by `decide`; the lemmas `qmul_eq`,
  `qdiv_eq`, `qabs_eq`, `qp2_eq`, `imax_eq` restate them as the ordinary
  field operations.
-/

namespace BLEProfiles

/-- Fuel-bounded floor of `log2` on naturals: `log2fuel f n` halves `n` until
it reaches 1, counting the steps; `f ≥ n` supplies enough fuel. -/
def log2fuel : ℕ → ℕ → ℕ
  | 0, _ => 0
  | f + 1, n => if n ≤ 1 then 0 else log2fuel f (n / 2) + 1

/-- Fuel-bounded ceiling of `log2 (b / a)` for `0 < a ≤ b`: doubles `a` until
it reaches `b`, counting the steps; `f ≥ b` supplies enough fuel. -/
def clog2fuel : ℕ → ℕ → ℕ → ℕ
  | 0, _, _ => 0
  | f + 1, b, a => if b ≤ a then 0 else clog2fuel f b (2 * a) + 1

/-- `⌊log2 x⌋` for a positive rational `x`. -/
def floorLog2 (x : ℚ) : ℤ :=
  let a := x.num.natAbs
  let b := x.den
  if b ≤ a then (log2fuel (a / b) (a / b) : ℤ) else -(clog2fuel b b a : ℤ)

/-- `max` on `ℤ`, written out so that it evaluates by kernel reduction. -/
def imax (a b : ℤ) : ℤ := if a ≤ b then b else a

/-- Absolute value on `ℚ`, written out so that it evaluates. -/
def qabs (q : ℚ) : ℚ := if q < 0 then -q else q

/-- `(2 : ℚ) ^ (k : ℤ)`, written out so that it evaluates. -/
def qp2 (k : ℤ) : ℚ :=
  if 0 ≤ k then mkRat ((2 ^ k.toNat : ℕ) : ℤ) 1 else mkRat 1 (2 ^ (-k).toNat)

/-- Multiplication on `ℚ`, written out so that it evaluates. -/
def qmul (a b : ℚ) : ℚ := mkRat (a.num * b.num) (a.den * b.den)

/-- Division on `ℚ` (with `qdiv a 0 = 0`), written out so that it evaluates. -/
def qdiv (a b : ℚ) : ℚ := Rat.divInt (a.num * (b.den : ℤ)) ((a.den : ℤ) * b.num)

/-- Round a rational to the nearest integer, ties to even. -/
def roundNE (y : ℚ) : ℤ :=
  let f := ⌊y⌋
  let r2 := 2 * (y.num - f * (y.den : ℤ))
  if r2 < (y.den : ℤ) then f
  else if (y.den : ℤ) < r2 then f + 1
  else if f % 2 = 0 then f else f + 1

/-- IEEE-754 binary32 rounding (round to nearest, ties to even) of an exact
rational, with the subnormal exponent cutoff at `2 ^ (-149)`.  Values of
magnitude `2 ^ 128` or more (which would overflow to infinity) are outside
the modelled domain. -/
def fround (q : ℚ) : ℚ :=
  if q = 0 then 0
  else
    let x := qabs q
    let e : ℤ := imax (floorLog2 x - 23) (-149)
    let m : ℤ := roundNE (qmul x (qp2 (-e)))
    qmul (mkRat (if q < 0 then -m else m) 1) (qp2 e)

/-- C `float` multiplication: exact product, then binary32 rounding. -/
def fmul (a b : ℚ) : ℚ := fround (qmul a b)

/-- C `float` division: exact quotient, then binary32 rounding. -/
def fdiv (a b : ℚ) : ℚ := fround (qdiv a b)

/-- C float-to-integer conversion: truncation toward zero. -/
def truncQ (q : ℚ) : ℤ := if q < 0 then ⌈q⌉ else ⌊q⌋

/-- Reinterpret a byte as `int8_t` (two's complement). -/
def toInt8 (n : ℕ) : ℤ := if n < 128 then n else (n : ℤ) - 256

/-- Reinterpret a 16-bit pattern as `int16_t` (two's complement). -/
def toInt16 (n : ℕ) : ℤ := if n < 32768 then n else (n : ℤ) - 65536

/-- Reinterpret a 32-bit pattern as `int32_t` (two's complement); this is the
value the C expression `(b0 << 24) | (b1 << 16) | (b2 << 8) | b3` produces in
a (32-bit `int`) accumulator on a two's-complement machine. -/
def toInt32 (n : ℕ) : ℤ := if n < 2147483648 then n else (n : ℤ) - 4294967296

/-! ### Float bit patterns

`FLOAT_LE`/`FLOAT_BE` fields are written and read through `memcpy` of the
four bytes of the binary32 representation; the host is little-endian (the
code targets ESP32/M5Stack). -/

/-- The binary32 value denoted by a 32-bit pattern.  Patterns with exponent
field 255 (infinities and NaNs) are outside the modelled domain and map
to 0. -/
def bitsToF32 (n : ℕ) : ℚ :=
  let si : ℕ := n / 2 ^ 31 % 2
  let E : ℕ := n / 2 ^ 23 % 2 ^ 8
  let f : ℕ := n % 2 ^ 23
  let mag : ℕ := if E = 0 then f else 2 ^ 23 + f
  if E = 255 then 0
  else qmul (mkRat (if si = 1 then -(mag : ℤ) else (mag : ℤ)) 1)
      (qp2 (if E = 0 then -149 else (E : ℤ) - 150))

/-- The 32-bit pattern of a binary32 value (meaningful when `fround q = q`
and `|q| < 2 ^ 128`). -/
def f32ToBits (q : ℚ) : ℕ :=
  if q = 0 then 0
  else
    let si : ℕ := if q < 0 then 2 ^ 31 else 0
    let x := qabs q
    let e : ℤ := imax (floorLog2 x - 23) (-149)
    let m : ℕ := (⌊qmul x (qp2 (-e))⌋).toNat
    if m < 2 ^ 23 then si + m
    else si + (e + 150).toNat * 2 ^ 23 + (m - 2 ^ 23)

/-! ### Data model (`DataType`, `DataFieldConfig`, `ManufacturerDataFormat`,
`DeviceProfile`)

`ServiceDataFormat` and the `serviceFormats` member of `DeviceProfile` are
not referenced by any of the functions under verification and are omitted.
The C float literals used as scale factors are embedded as the exact values
of the corresponding binary32 constants, e.g. `0.01f` is
`fround (mkRat 1 100)`. -/

inductive DataType
  | UINT8 | INT8
  | UINT16_LE | UINT16_BE | INT16_LE | INT16_BE
  | UINT32_LE | UINT32_BE
  | FLOAT_LE | FLOAT_BE
deriving DecidableEq

/-- Number of payload bytes occupied by a field of the given wire type. -/
def width : DataType → ℕ
  | .UINT8 | .INT8 => 1
  | .UINT16_LE | .UINT16_BE | .INT16_LE | .INT16_BE => 2
  | _ => 4

structure DataFieldConfig where
  sensorName : String
  offset : ℕ
  dataType : DataType
  scale : ℚ := 1
  unit : String := ""
deriving DecidableEq

structure ManufacturerDataFormat where
  companyId : ℕ := 0xFFFF
  dataFields : List DataFieldConfig := []
  totalLength : ℕ := 0
  description : String := ""
deriving DecidableEq

structure DeviceProfile where
  profileName : String := ""
  deviceName : String := ""
  serviceUuids : List String := []
  manufacturerFormat : ManufacturerDataFormat := {}
deriving DecidableEq

/-! ### Data parsing (`parseValue`, `parseManufacturerData`) -/

/-- `parseValue` from the source: read one field out of the payload.  The
byte-assembly expressions mirror the C shift/or expressions; `getD _ 0`
is in-bounds under the guards exactly as the C indexing is. -/
def parseValue (data : List ℕ) (field : DataFieldConfig) : ℚ :=
  if data.length ≤ field.offset then 0
  else
    let raw : ℚ :=
      match field.dataType with
      | .UINT8 =>
          if field.offset < data.length then ((data.getD field.offset 0 : ℕ) : ℚ) else 0
      | .INT8 =>
          if field.offset < data.length then ((toInt8 (data.getD field.offset 0) : ℤ) : ℚ)
          else 0
      | .UINT16_LE =>
          if field.offset + 1 < data.length then
            ((data.getD field.offset 0 ||| (data.getD (field.offset + 1) 0 <<< 8) : ℕ) : ℚ)
          else 0
      | .UINT16_BE =>
          if field.offset + 1 < data.length then
            (((data.getD field.offset 0 <<< 8) ||| data.getD (field.offset + 1) 0 : ℕ) : ℚ)
          else 0
      | .INT16_LE =>
          if field.offset + 1 < data.length then
            ((toInt16 (data.getD field.offset 0 ||| (data.getD (field.offset + 1) 0 <<< 8)) : ℤ) : ℚ)
          else 0
      | .INT16_BE =>
          if field.offset + 1 < data.length then
            ((toInt16 ((data.getD field.offset 0 <<< 8) ||| data.getD (field.offset + 1) 0) : ℤ) : ℚ)
          else 0
      | .UINT32_LE =>
          if field.offset + 3 < data.length then
            fround ((toInt32 (data.getD field.offset 0 |||
              (data.getD (field.offset + 1) 0 <<< 8) |||
              (data.getD (field.offset + 2) 0 <<< 16) |||
              (data.getD (field.offset + 3) 0 <<< 24)) : ℤ) : ℚ)
          else 0
      | .UINT32_BE =>
          if field.offset + 3 < data.length then
            fround ((toInt32 ((data.getD field.offset 0 <<< 24) |||
              (data.getD (field.offset + 1) 0 <<< 16) |||
              (data.getD (field.offset + 2) 0 <<< 8) |||
              data.getD (field.offset + 3) 0) : ℤ) : ℚ)
          else 0
      | .FLOAT_LE =>
          if field.offset + 3 < data.length then
            bitsToF32 (data.getD field.offset 0 + data.getD (field.offset + 1) 0 * 2 ^ 8 +
              data.getD (field.offset + 2) 0 * 2 ^ 16 + data.getD (field.offset + 3) 0 * 2 ^ 24)
          else 0
      | .FLOAT_BE =>
          if field.offset + 3 < data.length then
            bitsToF32 (data.getD (field.offset + 3) 0 + data.getD (field.offset + 2) 0 * 2 ^ 8 +
              data.getD (field.offset + 1) 0 * 2 ^ 16 + data.getD field.offset 0 * 2 ^ 24)
          else 0
    fmul raw field.scale

/-- `results[key] = value` on a `std::map` modelled as an association list:
replace the existing binding, or append a new one. -/
def insertKV (l : List (String × ℚ)) (k : String) (v : ℚ) : List (String × ℚ) :=
  match l with
  | [] => [(k, v)]
  | (k', v') :: t => if k' = k then (k, v) :: t else (k', v') :: insertKV t k v

/-- `parseManufacturerData` from the source; an empty map signals failure. -/
def parseManufacturerData (data : List ℕ) (format : ManufacturerDataFormat) :
    List (String × ℚ) :=
  if data.length < 2 then []
  else
    let receivedCompanyId := data.getD 0 0 ||| (data.getD 1 0 <<< 8)
    if receivedCompanyId ≠ format.companyId then []
    else if data.length < 2 + format.totalLength then []
    else
      let sensorData := data.drop 2
      format.dataFields.foldl
        (fun results field => insertKV results field.sensorName (parseValue sensorData field)) []

/-! ### Data packing (`packManufacturerData`) -/

/-- Write a run of bytes starting at `pos` (out-of-range writes are dropped;
the C code would overflow the buffer there, which no caller respecting the
`offset + width ≤ totalLength` invariant can trigger). -/
def setBytes (l : List ℕ) (pos : ℕ) (bs : List ℕ) : List ℕ :=
  match bs with
  | [] => l
  | b :: t => setBytes (l.set pos b) (pos + 1) t

/-- The bytes the `switch` in `packManufacturerData` writes for one field,
in increasing offset order.  The integer-typed cases are the C
float-to-integer conversion followed by a two's-complement narrowing; for a
16-bit value `w`, `val & 0xFF` is `w % 256` and `(val >> 8) & 0xFF` is
`w / 256`.  `UINT32_LE`/`UINT32_BE` have no case in the C switch (they fall
into `default: break;`), so no bytes are written for them. -/
def packFieldBytes (scaled : ℚ) : DataType → List ℕ
  | .UINT8 => [((truncQ scaled).emod 256).toNat]
  | .INT8 => [((truncQ scaled).emod 256).toNat]
  | .UINT16_LE =>
      let w := ((truncQ scaled).emod 65536).toNat
      [w % 256, w / 256]
  | .UINT16_BE =>
      let w := ((truncQ scaled).emod 65536).toNat
      [w / 256, w % 256]
  | .INT16_LE =>
      let w := ((truncQ scaled).emod 65536).toNat
      [w % 256, w / 256]
  | .INT16_BE =>
      let w := ((truncQ scaled).emod 65536).toNat
      [w / 256, w % 256]
  | .UINT32_LE => []
  | .UINT32_BE => []
  | .FLOAT_LE =>
      let b := f32ToBits scaled
      [b % 256, b / 2 ^ 8 % 256, b / 2 ^ 16 % 256, b / 2 ^ 24 % 256]
  | .FLOAT_BE =>
      let b := f32ToBits scaled
      [b / 2 ^ 24 % 256, b / 2 ^ 16 % 256, b / 2 ^ 8 % 256, b % 256]

/-- `packManufacturerData` from the source: company id little-endian, a
zero-filled payload of `totalLength` bytes, then one write per field whose
name is present in `values`. -/
def packManufacturerData (values : List (String × ℚ)) (format : ManufacturerDataFormat) :
    List ℕ :=
  let data := [format.companyId % 256, format.companyId / 256 % 256] ++
    List.replicate format.totalLength 0
  format.dataFields.foldl
    (fun buf field =>
      match List.lookup field.sensorName values with
      | none => buf
      | some v => setBytes buf (2 + field.offset) (packFieldBytes (fdiv v field.scale) field.dataType))
    data

/-! ### Sensor groups, profiles and name-based lookup -/

/-- `SensorGroup` from the source (six variants; the string `"Unknown"` is
only a fallback inside `getSensorGroupName`, not an enum value). -/
inductive SensorGroup
  | ENVIRONMENTAL | AIR_QUALITY | MOTION | AMBIENT | SYSTEM | CURRENT
deriving DecidableEq

/-- Does `needle` occur at the start of `hay`? -/
def listIsPrefixOf : List Char → List Char → Bool
  | [], _ => true
  | _ :: _, [] => false
  | c :: n, d :: h => c == d && listIsPrefixOf n h

/-- Does `needle` occur anywhere in `hay`? -/
def listHasSub : List Char → List Char → Bool
  | [], n => n.isEmpty
  | c :: t, n => listIsPrefixOf n (c :: t) || listHasSub t n

/-- `hay.find(needle) != std::string::npos`: substring containment, exactly
as `std::string::find` reports it (the empty needle is always found). -/
def strHasSub (hay needle : String) : Bool := listHasSub hay.data needle.data

namespace ServiceUUIDs

def ENVIRONMENTAL : String := "6E400001-B5A3-F393-E0A9-E50E24DCCA9E"

def AIR_QUALITY : String := "6E400002-B5A3-F393-E0A9-E50E24DCCA9E"

def MOTION : String := "6E400003-B5A3-F393-E0A9-E50E24DCCA9E"

def AMBIENT : String := "6E400004-B5A3-F393-E0A9-E50E24DCCA9E"

def SYSTEM : String := "6E400005-B5A3-F393-E0A9-E50E24DCCA9E"

def CURRENT : String := "6E400006-B5A3-F393-E0A9-E50E24DCCA9E"

end ServiceUUIDs

/-- `getServiceUUIDForGroup` from the source (the `default:` branch is
unreachable: the enum has exactly the six listed values). -/
def getServiceUUIDForGroup : SensorGroup → String
  | .ENVIRONMENTAL => ServiceUUIDs.ENVIRONMENTAL
  | .AIR_QUALITY => ServiceUUIDs.AIR_QUALITY
  | .MOTION => ServiceUUIDs.MOTION
  | .AMBIENT => ServiceUUIDs.AMBIENT
  | .SYSTEM => ServiceUUIDs.SYSTEM
  | .CURRENT => ServiceUUIDs.CURRENT

/-- `getSensorGroupFromName` from the source: case-SENSITIVE substring
tests against fixed keyword lists, in the source's order, defaulting to
`ENVIRONMENTAL`. -/
def getSensorGroupFromName (sensorName : String) : SensorGroup :=
  if strHasSub sensorName "bmp" || strHasSub sensorName "hdc" ||
      strHasSub sensorName "sht" || strHasSub sensorName "dht" ||
      strHasSub sensorName "aht" || strHasSub sensorName "temperature" ||
      strHasSub sensorName "humidity" || strHasSub sensorName "pressure" then
    .ENVIRONMENTAL
  else if strHasSub sensorName "ens" || strHasSub sensorName "sgp" ||
      strHasSub sensorName "ccs" || strHasSub sensorName "aqi" ||
      strHasSub sensorName "co2" || strHasSub sensorName "tvoc" then
    .AIR_QUALITY
  else if strHasSub sensorName "mpu" || strHasSub sensorName "bmi" ||
      strHasSub sensorName "bmm" || strHasSub sensorName "lsm" ||
      strHasSub sensorName "accel" || strHasSub sensorName "gyro" ||
      strHasSub sensorName "magnet" then
    .MOTION
  else if strHasSub sensorName "veml" || strHasSub sensorName "tsl" ||
      strHasSub sensorName "bh1" || strHasSub sensorName "light" ||
      strHasSub sensorName "color" || strHasSub sensorName "brightness" then
    .AMBIENT
  else if strHasSub sensorName "bq" || strHasSub sensorName "ip5306" ||
      strHasSub sensorName "battery" || strHasSub sensorName "power" ||
      strHasSub sensorName "charging" then
    .SYSTEM
  else if strHasSub sensorName "sct" || strHasSub sensorName "current" then
    .CURRENT
  else
    .ENVIRONMENTAL

/-- `findProfileByDeviceName` from the source: the first profile (in list
order) whose `deviceName` pattern is a substring of the observed name. -/
def findProfileByDeviceName (deviceName : String) : List DeviceProfile → Option DeviceProfile
  | [] => none
  | profile :: rest =>
      if strHasSub deviceName profile.deviceName then some profile
      else findProfileByDeviceName deviceName rest

/-- `createEnvironmentalSensorProfile` from the source. -/
def createEnvironmentalSensorProfile : DeviceProfile :=
  { profileName := "Environmental_Sensors"
    deviceName := "Environmental"
    serviceUuids := [ServiceUUIDs.ENVIRONMENTAL]
    manufacturerFormat :=
      { companyId := 0xFFFF
        dataFields := [
          { sensorName := "temperature", offset := 0, dataType := .INT16_BE,
            scale := fround (mkRat 1 100), unit := "°C" },
          { sensorName := "humidity", offset := 2, dataType := .UINT16_BE,
            scale := fround (mkRat 1 100), unit := "%" },
          { sensorName := "pressure", offset := 4, dataType := .UINT32_BE,
            scale := fround (mkRat 1 100), unit := "hPa" },
          { sensorName := "altitude", offset := 8, dataType := .INT16_BE,
            scale := fround (mkRat 1 10), unit := "m" }]
        totalLength := 10
        description := "Environmental sensors data format" } }

/-- `createAirQualitySensorProfile` from the source. -/
def createAirQualitySensorProfile : DeviceProfile :=
  { profileName := "Air_Quality_Sensors"
    deviceName := "AirQuality"
    serviceUuids := [ServiceUUIDs.AIR_QUALITY]
    manufacturerFormat :=
      { companyId := 0xFFFF
        dataFields := [
          { sensorName := "aqi", offset := 0, dataType := .UINT16_BE, unit := "AQI" },
          { sensorName := "tvoc", offset := 2, dataType := .UINT16_BE, unit := "ppb" },
          { sensorName := "co2", offset := 4, dataType := .UINT16_BE, unit := "ppm" },
          { sensorName := "gas_resistance", offset := 6, dataType := .UINT32_BE, unit := "Ohm" }]
        totalLength := 10
        description := "Air quality sensors data format" } }

/-- `createMotionSensorProfile` from the source. -/
def createMotionSensorProfile : DeviceProfile :=
  { profileName := "Motion_Sensors"
    deviceName := "Motion"
    serviceUuids := [ServiceUUIDs.MOTION]
    manufacturerFormat :=
      { companyId := 0xFFFF
        dataFields := [
          { sensorName := "accel_x", offset := 0, dataType := .INT16_BE,
            scale := fround (mkRat 1 1000), unit := "g" },
          { sensorName := "accel_y", offset := 2, dataType := .INT16_BE,
            scale := fround (mkRat 1 1000), unit := "g" },
          { sensorName := "accel_z", offset := 4, dataType := .INT16_BE,
            scale := fround (mkRat 1 1000), unit := "g" },
          { sensorName := "gyro_x", offset := 6, dataType := .INT16_BE,
            scale := fround (mkRat 1 10), unit := "dps" },
          { sensorName := "gyro_y", offset := 8, dataType := .INT16_BE,
            scale := fround (mkRat 1 10), unit := "dps" },
          { sensorName := "gyro_z", offset := 10, dataType := .INT16_BE,
            scale := fround (mkRat 1 10), unit := "dps" }]
        totalLength := 12
        description := "Motion sensors data format" } }

/-- `createAmbientSensorProfile` from the source. -/
def createAmbientSensorProfile : DeviceProfile :=
  { profileName := "Ambient_Sensors"
    deviceName := "Ambient"
    serviceUuids := [ServiceUUIDs.AMBIENT]
    manufacturerFormat :=
      { companyId := 0xFFFF
        dataFields := [
          { sensorName := "brightness", offset := 0, dataType := .UINT16_BE,
            scale := fround (mkRat 1 100), unit := "lux" },
          { sensorName := "red", offset := 2, dataType := .UINT8 },
          { sensorName := "green", offset := 3, dataType := .UINT8 },
          { sensorName := "blue", offset := 4, dataType := .UINT8 },
          { sensorName := "white", offset := 5, dataType := .UINT8 }]
        totalLength := 6
        description := "Ambient sensors data format" } }

/-- `createSystemSensorProfile` from the source. -/
def createSystemSensorProfile : DeviceProfile :=
  { profileName := "System_Sensors"
    deviceName := "System"
    serviceUuids := [ServiceUUIDs.SYSTEM]
    manufacturerFormat :=
      { companyId := 0xFFFF
        dataFields := [
          { sensorName := "battery_level", offset := 0, dataType := .UINT8, unit := "%" },
          { sensorName := "soc", offset := 1, dataType := .UINT16_BE,
            scale := fround (mkRat 1 100), unit := "%" },
          { sensorName := "voltage", offset := 3, dataType := .UINT16_BE,
            scale := fround (mkRat 1 1000), unit := "V" },
          { sensorName := "current", offset := 5, dataType := .INT16_BE,
            scale := fround (mkRat 1 1000), unit := "A" },
          { sensorName := "charging", offset := 7, dataType := .UINT8 }]
        totalLength := 8
        description := "System sensors data format" } }

/-- `createCurrentSensorProfile` from the source. -/
def createCurrentSensorProfile : DeviceProfile :=
  { profileName := "Current_Sensors"
    deviceName := "Current"
    serviceUuids := [ServiceUUIDs.CURRENT]
    manufacturerFormat :=
      { companyId := 0xFFFF
        dataFields := [
          { sensorName := "rms_current", offset := 0, dataType := .FLOAT_BE, unit := "A" },
          { sensorName := "power", offset := 4, dataType := .FLOAT_BE, unit := "W" },
          { sensorName := "energy", offset := 8, dataType := .FLOAT_BE, unit := "Wh" }]
        totalLength := 12
        description := "Current sensors data format" } }

/-- The `switch (group)` shared by `packSensorGroupData` and
`parseSensorGroupData`: the canonical profile of each sensor group (the
`default:` branch is unreachable for the six-valued enum). -/
def profileForGroup : SensorGroup → DeviceProfile
  | .ENVIRONMENTAL => createEnvironmentalSensorProfile
  | .AIR_QUALITY => createAirQualitySensorProfile
  | .MOTION => createMotionSensorProfile
  | .AMBIENT => createAmbientSensorProfile
  | .SYSTEM => createSystemSensorProfile
  | .CURRENT => createCurrentSensorProfile

/-- `packSensorGroupData` from the source. -/
def packSensorGroupData (values : List (String × ℚ)) (group : SensorGroup) : List ℕ :=
  packManufacturerData values (profileForGroup group).manufacturerFormat

/-- `parseSensorGroupData` from the source. -/
def parseSensorGroupData (data : List ℕ) (group : SensorGroup) : List (String × ℚ) :=
  parseManufacturerData data (profileForGroup group).manufacturerFormat

/-! ### Spec-side classifier (for the refinement statement of claim C6)

`classifyByPriorityTable` is written from the specification's words: a fixed
keyword table, one ordered keyword set per group, groups tried in the fixed
priority order Environmental → AirQuality → Motion → Ambient → System →
Current, first match wins, default Environmental. -/

/-- The keyword sets of the specification's classifier, per group. -/
def groupKeywords : SensorGroup → List String
  | .ENVIRONMENTAL => ["bmp", "hdc", "sht", "dht", "aht", "temperature", "humidity", "pressure"]
  | .AIR_QUALITY => ["ens", "sgp", "ccs", "aqi", "co2", "tvoc"]
  | .MOTION => ["mpu", "bmi", "bmm", "lsm", "accel", "gyro", "magnet"]
  | .AMBIENT => ["veml", "tsl", "bh1", "light", "color", "brightness"]
  | .SYSTEM => ["bq", "ip5306", "battery", "power", "charging"]
  | .CURRENT => ["sct", "current"]

/-- Does any keyword of `group` occur in `sensorName`? -/
def matchesGroup (sensorName : String) (group : SensorGroup) : Bool :=
  (groupKeywords group).any (fun k => strHasSub sensorName k)

/-- The specification's classifier: first matching group in priority order,
`ENVIRONMENTAL` when none matches. -/
def classifyByPriorityTable (sensorName : String) : SensorGroup :=
  (([SensorGroup.ENVIRONMENTAL, .AIR_QUALITY, .MOTION, .AMBIENT, .SYSTEM,
      .CURRENT].find? (fun g => matchesGroup sensorName g)).getD .ENVIRONMENTAL)

/-! ### Bridging lemmas: the executable rational operations agree with the
ordinary `ℚ` field operations. -/

theorem imax_eq (a b : ℤ) : imax a b = max a b := by
  rw [imax, max_def]

theorem qabs_eq (q : ℚ) : qabs q = |q| := by
  rw [qabs]
  rcases lt_or_le q 0 with h | h
  · rw [if_pos h, abs_of_neg h]
  · rw [if_neg (not_lt.mpr h), abs_of_nonneg h]

theorem qp2_eq (k : ℤ) : qp2 k = (2 : ℚ) ^ k := by
  rw [qp2]
  rcases le_or_lt 0 k with h | h
  · rw [if_pos h, Rat.mkRat_eq_divInt, Rat.divInt_eq_div]
    push_cast
    rw [div_one, ← zpow_natCast (2 : ℚ), Int.toNat_of_nonneg h]
  · rw [if_neg (not_le.mpr h), Rat.mkRat_eq_divInt, Rat.divInt_eq_div]
    push_cast
    rw [one_div, ← zpow_natCast (2 : ℚ), Int.toNat_of_nonneg (by omega : (0 : ℤ) ≤ -k),
      ← zpow_neg, neg_neg]

theorem qmul_eq (a b : ℚ) : qmul a b = a * b := by
  rw [qmul, Rat.mkRat_eq_divInt, Rat.divInt_eq_div]
  push_cast
  rw [← div_mul_div_comm, Rat.num_div_den, Rat.num_div_den]

theorem qdiv_eq (a b : ℚ) : qdiv a b = a / b := by
  rw [qdiv, Rat.divInt_eq_div]
  rcases eq_or_ne b 0 with rfl | hb
  · simp
  · have hbnum : (b.num : ℚ) ≠ 0 := by
      exact_mod_cast Rat.num_ne_zero.mpr hb
    have hade : (a.den : ℚ) ≠ 0 := by
      exact_mod_cast a.den_nz
    have hbde : (b.den : ℚ) ≠ 0 := by
      exact_mod_cast b.den_nz
    conv_rhs => rw [← Rat.num_div_den a, ← Rat.num_div_den b]
    push_cast
    field_simp

theorem qmul_zero_left (b : ℚ) : qmul 0 b = 0 := by
  rw [qmul_eq, zero_mul]

theorem fround_zero : fround 0 = 0 := by
  rw [fround, if_pos rfl]

theorem fmul_zero_left (b : ℚ) : fmul 0 b = 0 := by
  rw [fmul, qmul_zero_left, fround_zero]

theorem roundNE_intCast (z : ℤ) : roundNE (z : ℚ) = z := by
  rw [roundNE]
  simp only [Rat.intCast_num, Rat.intCast_den, Int.floor_intCast, Nat.cast_one, mul_one,
    sub_self, mul_zero]
  norm_num

/-! ### Characterization of `floorLog2` -/

theorem log2fuel_spec : ∀ f n, 1 ≤ n → n ≤ f →
    2 ^ log2fuel f n ≤ n ∧ n < 2 ^ (log2fuel f n + 1) := by
  intro f
  induction f with
  | zero => intro n h1 h2; omega
  | succ f ih =>
    intro n h1 h2
    rw [log2fuel]
    split
    · next h =>
      have hn : n = 1 := by omega
      subst hn
      norm_num
    · next h =>
      obtain ⟨lo, hi⟩ := ih (n / 2) (by omega) (by omega)
      rw [pow_succ] at hi
      refine ⟨?_, ?_⟩
      · rw [pow_succ]
        omega
      · rw [pow_succ, pow_succ]
        omega

theorem clog2fuel_spec : ∀ f b a, 1 ≤ a → b ≤ a * 2 ^ f →
    b ≤ a * 2 ^ clog2fuel f b a ∧ ∀ j < clog2fuel f b a, a * 2 ^ j < b := by
  intro f
  induction f with
  | zero =>
    intro b a ha hfuel
    rw [clog2fuel]
    exact ⟨by simpa using hfuel, fun j hj => absurd hj (Nat.not_lt_zero j)⟩
  | succ f ih =>
    intro b a ha hfuel
    rw [clog2fuel]
    split
    · next h =>
      exact ⟨by simpa using h, fun j hj => absurd hj (Nat.not_lt_zero j)⟩
    · next h =>
      have hfuel' : b ≤ 2 * a * 2 ^ f := by
        have hr : a * 2 ^ (f + 1) = 2 * a * 2 ^ f := by ring
        rw [hr] at hfuel
        exact hfuel
      obtain ⟨lo, hstrict⟩ := ih b (2 * a) (by omega) hfuel'
      refine ⟨?_, ?_⟩
      · have hr : a * 2 ^ (clog2fuel f b (2 * a) + 1) = 2 * a * 2 ^ clog2fuel f b (2 * a) := by
          ring
        rw [hr]
        exact lo
      · intro j hj
        match j with
        | 0 => simpa using Nat.lt_of_not_le h
        | j' + 1 =>
          have hs := hstrict j' (by omega)
          calc a * 2 ^ (j' + 1) = 2 * a * 2 ^ j' := by ring
            _ < b := hs

/-- `(2 : ℚ) ^ (-k) * (a * 2 ^ k) = a`. -/
theorem qp2_mul_cancel (k : ℤ) (a : ℚ) : (2 : ℚ) ^ (-k) * (a * 2 ^ k) = a := by
  rw [mul_comm a, ← mul_assoc, ← zpow_add₀ (two_ne_zero (α := ℚ)), neg_add_cancel,
    zpow_zero, one_mul]

theorem floorLog2_spec (x : ℚ) (hx : 0 < x) :
    (2 : ℚ) ^ floorLog2 x ≤ x ∧ x < 2 ^ (floorLog2 x + 1) := by
  have hnum : 0 < x.num := Rat.num_pos.mpr hx
  have hden : 0 < x.den := x.den_pos
  have hbq : (0 : ℚ) < (x.den : ℚ) := by exact_mod_cast hden
  have hxab : x = ((x.num.natAbs : ℕ) : ℚ) / ((x.den : ℕ) : ℚ) := by
    have hcast : ((x.num.natAbs : ℕ) : ℚ) = ((x.num : ℤ) : ℚ) := by
      rw [Int.cast_natAbs, abs_of_nonneg hnum.le]
    rw [hcast, Rat.num_div_den]
  simp only [floorLog2]
  split
  · next hba =>
    set n := x.num.natAbs / x.den with hn
    have hn1 : 1 ≤ n := (Nat.one_le_div_iff hden).mpr hba
    obtain ⟨lo, hi⟩ := log2fuel_spec n n hn1 le_rfl
    have hlo : x.den * 2 ^ log2fuel n n ≤ x.num.natAbs := by
      have h := (Nat.le_div_iff_mul_le hden).mp lo
      rw [mul_comm]
      exact h
    have hhi : x.num.natAbs < 2 ^ (log2fuel n n + 1) * x.den :=
      (Nat.div_lt_iff_lt_mul hden).mp hi
    constructor
    · rw [hxab, le_div_iff₀ hbq, zpow_natCast]
      exact_mod_cast Nat.le_of_eq (mul_comm _ _) |>.trans hlo
    · rw [hxab, div_lt_iff₀ hbq]
      have : ((x.num.natAbs : ℕ) : ℚ) < ((2 ^ (log2fuel n n + 1) * x.den : ℕ) : ℚ) := by
        exact_mod_cast hhi
      calc ((x.num.natAbs : ℕ) : ℚ) < ((2 ^ (log2fuel n n + 1) * x.den : ℕ) : ℚ) := this
        _ = 2 ^ ((log2fuel n n : ℤ) + 1) * (x.den : ℚ) := by
            push_cast
            rw [← zpow_natCast (2 : ℚ) (log2fuel n n + 1)]
            push_cast
            ring
  · next hba =>
    have hab : x.num.natAbs < x.den := Nat.lt_of_not_le hba
    have ha1 : 1 ≤ x.num.natAbs := by omega
    have hfuel : x.den ≤ x.num.natAbs * 2 ^ x.den := by
      have h1 : x.den < 2 ^ x.den := Nat.lt_two_pow x.den
      have h2 : 2 ^ x.den ≤ x.num.natAbs * 2 ^ x.den := Nat.le_mul_of_pos_left _ ha1
      omega
    obtain ⟨lo, hstrict⟩ := clog2fuel_spec x.den x.den x.num.natAbs ha1 hfuel
    set K := clog2fuel x.den x.den x.num.natAbs with hK
    have hKpos : 1 ≤ K := by
      by_contra h0
      have : K = 0 := by omega
      rw [this] at lo
      simp at lo
      omega
    have hs := hstrict (K - 1) (by omega)
    constructor
    · rw [hxab, le_div_iff₀ hbq]
      have hcast : ((x.den : ℕ) : ℚ) ≤ ((x.num.natAbs * 2 ^ K : ℕ) : ℚ) := by
        exact_mod_cast lo
      calc (2 : ℚ) ^ (-(K : ℤ)) * (x.den : ℚ)
          ≤ 2 ^ (-(K : ℤ)) * ((x.num.natAbs * 2 ^ K : ℕ) : ℚ) := by
            apply mul_le_mul_of_nonneg_left _ (by positivity)
            exact hcast
        _ = ((x.num.natAbs : ℕ) : ℚ) := by
            push_cast
            rw [← zpow_natCast (2 : ℚ) K]
            exact qp2_mul_cancel (K : ℤ) _
    · rw [hxab, div_lt_iff₀ hbq]
      have hcast : ((x.num.natAbs * 2 ^ (K - 1) : ℕ) : ℚ) < ((x.den : ℕ) : ℚ) := by
        exact_mod_cast hs
      have hexp : ((x.num.natAbs : ℕ) : ℚ) * 2 ^ ((K : ℤ) - 1) < (x.den : ℚ) := by
        calc ((x.num.natAbs : ℕ) : ℚ) * 2 ^ ((K : ℤ) - 1)
            = ((x.num.natAbs * 2 ^ (K - 1) : ℕ) : ℚ) := by
              push_cast
              rw [← zpow_natCast (2 : ℚ) (K - 1)]
              congr 2
              omega
          _ < ((x.den : ℕ) : ℚ) := hcast
      have h2pos : (0 : ℚ) < 2 ^ ((K : ℤ) - 1) := by positivity
      calc ((x.num.natAbs : ℕ) : ℚ)
          = ((x.num.natAbs : ℕ) : ℚ) * 2 ^ ((K : ℤ) - 1) * 2 ^ (-((K : ℤ) - 1)) := by
            rw [mul_assoc, ← zpow_add₀ (two_ne_zero (α := ℚ)), add_neg_cancel,
              zpow_zero, mul_one]
        _ < (x.den : ℚ) * 2 ^ (-((K : ℤ) - 1)) := by
            apply mul_lt_mul_of_pos_right hexp (by positivity)
        _ = 2 ^ (-(K : ℤ) + 1) * (x.den : ℚ) := by
            rw [mul_comm]
            congr 1
            congr 1
            omega

theorem floorLog2_unique (x : ℚ) (hx : 0 < x) (E : ℤ)
    (h1 : (2 : ℚ) ^ E ≤ x) (h2 : x < 2 ^ (E + 1)) : floorLog2 x = E := by
  obtain ⟨lo, hi⟩ := floorLog2_spec x hx
  by_contra hne
  rcases lt_or_gt_of_ne hne with h | h
  · have hle : (2 : ℚ) ^ (floorLog2 x + 1) ≤ 2 ^ E :=
      zpow_le_zpow_right₀ one_le_two (by omega)
    linarith
  · have hle : (2 : ℚ) ^ (E + 1) ≤ 2 ^ floorLog2 x :=
      zpow_le_zpow_right₀ one_le_two (by omega)
    linarith

/-! ### `fround` in field-operation form, and its fixed points -/

/-- Unfolding of `fround` at a nonzero argument, with the executable
operations replaced by the ordinary field operations. -/
theorem fround_eq (q : ℚ) (hq : q ≠ 0) :
    fround q = (if q < 0 then (-1 : ℚ) else 1) *
      (roundNE (|q| * 2 ^ (-(max (floorLog2 |q| - 23) (-149)))) : ℚ) *
      2 ^ (max (floorLog2 |q| - 23) (-149)) := by
  rw [fround, if_neg hq]
  simp only [qabs_eq, imax_eq, qp2_eq, qmul_eq, Rat.mkRat_one]
  split
  · push_cast
    ring
  · push_cast
    ring

/-- A nonzero binary32 value is its rounded significand times its scale. -/
theorem repr_abs (q : ℚ) (hq0 : q ≠ 0) (hq : fround q = q) :
    |q| = (roundNE (|q| * 2 ^ (-(max (floorLog2 |q| - 23) (-149)))) : ℚ) *
      2 ^ (max (floorLog2 |q| - 23) (-149)) := by
  have h := fround_eq q hq0
  rw [hq] at h
  rcases lt_or_le q 0 with hneg | hpos
  · conv_lhs => rw [abs_of_neg hneg]
    rw [if_pos hneg] at h
    linarith
  · conv_lhs => rw [abs_of_nonneg hpos]
    rw [if_neg (not_lt.mpr hpos)] at h
    linarith

/-- `fround` is the identity on integers below `2 ^ 24` in magnitude
(conversion of such integers to `float` is exact). -/
theorem fround_intCast (z : ℤ) (hz : z.natAbs < 2 ^ 24) : fround (z : ℚ) = z := by
  rcases eq_or_ne z 0 with rfl | hz0
  · push_cast
    exact fround_zero
  · have hq0 : (z : ℚ) ≠ 0 := by exact_mod_cast hz0
    have habs : |(z : ℚ)| = ((z.natAbs : ℕ) : ℚ) := by
      rw [Int.cast_natAbs, Int.cast_abs]
    have hn1 : 1 ≤ z.natAbs := by omega
    have hnq : (0 : ℚ) < ((z.natAbs : ℕ) : ℚ) := by exact_mod_cast hn1
    obtain ⟨lo, hi⟩ := log2fuel_spec z.natAbs z.natAbs hn1 le_rfl
    set n := z.natAbs with hn
    set E := log2fuel n n with hE
    have hElt : E < 24 := by
      by_contra hcon
      push_neg at hcon
      have h24 : (2 : ℕ) ^ 24 ≤ 2 ^ E := Nat.pow_le_pow_right (by norm_num) hcon
      omega
    have hflog : floorLog2 ((n : ℕ) : ℚ) = (E : ℤ) := by
      apply floorLog2_unique _ hnq
      · rw [zpow_natCast]
        exact_mod_cast lo
      · have hc : ((E : ℤ) + 1) = ((E + 1 : ℕ) : ℤ) := by omega
        rw [hc, zpow_natCast]
        exact_mod_cast hi
    have hmax : max ((E : ℤ) - 23) (-149) = (E : ℤ) - 23 := max_eq_left (by omega)
    have hcastexp : (2 : ℚ) ^ (-((E : ℤ) - 23)) = ((2 ^ (23 - E) : ℕ) : ℚ) := by
      have h1 : -((E : ℤ) - 23) = ((23 - E : ℕ) : ℤ) := by omega
      rw [h1, zpow_natCast]
      push_cast
      rfl
    have hprod : ((n : ℕ) : ℚ) * ((2 ^ (23 - E) : ℕ) : ℚ) =
        (((n * 2 ^ (23 - E) : ℕ) : ℤ) : ℚ) := by
      push_cast
      ring
    have hcan : ((n : ℕ) : ℚ) * (2 : ℚ) ^ (-((E : ℤ) - 23)) * 2 ^ ((E : ℤ) - 23) =
        ((n : ℕ) : ℚ) := by
      rw [mul_assoc, ← zpow_add₀ (two_ne_zero (α := ℚ)), neg_add_cancel, zpow_zero, mul_one]
    rw [fround_eq (z : ℚ) hq0, habs, hflog, hmax, hcastexp, hprod, roundNE_intCast, ← hprod,
      ← hcastexp, mul_assoc, hcan]
    rcases lt_or_le z 0 with hneg | hpos
    · rw [if_pos (by exact_mod_cast hneg : (z : ℚ) < 0)]
      have hzn : (z : ℚ) = -((n : ℕ) : ℚ) := by
        exact_mod_cast congrArg (fun t : ℤ => (t : ℚ)) (by omega : z = -(n : ℤ))
      rw [hzn, neg_one_mul]
    · rw [if_neg (by exact_mod_cast not_lt.mpr hpos : ¬ (z : ℚ) < 0)]
      have hzn : (z : ℚ) = ((n : ℕ) : ℚ) := by
        exact_mod_cast congrArg (fun t : ℤ => (t : ℚ)) (by omega : z = (n : ℤ))
      rw [hzn, one_mul]

/-- Writing a binary32 value (a fixed point of `fround` below the overflow
threshold) to its bit pattern and reading the pattern back is the identity. -/
theorem bitsToF32_f32ToBits (q : ℚ) (hq : fround q = q) (hlt : |q| < 2 ^ (128 : ℤ)) :
    bitsToF32 (f32ToBits q) = q := by
  rcases eq_or_ne q 0 with rfl | hq0
  · decide
  · have hx0 : (0 : ℚ) < |q| := abs_pos.mpr hq0
    have hrepr := repr_abs q hq0 hq
    obtain ⟨hLlo, hLhi⟩ := floorLog2_spec |q| hx0
    rw [f32ToBits, if_neg hq0]
    simp only [qabs_eq, imax_eq, qp2_eq, qmul_eq]
    set L := floorLog2 |q| with hLdef
    set e := max (L - 23) (-149) with hedef
    set M := roundNE (|q| * 2 ^ (-e)) with hMdef
    have h2e : (0 : ℚ) < 2 ^ e := by positivity
    have hMposQ : (0 : ℚ) < (M : ℚ) := by
      by_contra hcon
      push_neg at hcon
      have hnp : (M : ℚ) * 2 ^ e ≤ 0 := mul_nonpos_of_nonpos_of_nonneg hcon h2e.le
      linarith
    have hMpos : 0 < M := by exact_mod_cast hMposQ
    have hxe : |q| * 2 ^ (-e) = (M : ℚ) := by
      rw [hrepr, mul_assoc, ← zpow_add₀ (two_ne_zero (α := ℚ)), add_neg_cancel,
        zpow_zero, mul_one]
    have hfloorM : ⌊|q| * 2 ^ (-e)⌋ = M := by
      rw [hxe, Int.floor_intCast]
    have hgeL : L - 23 ≤ e := le_max_left _ _
    have hge149 : -149 ≤ e := le_max_right _ _
    have hmax_cases : e = L - 23 ∨ e = -149 := by
      rcases max_choice (L - 23) (-149) with hc | hc
      · exact Or.inl (hedef.trans hc)
      · exact Or.inr (hedef.trans hc)
    have hM24 : M < 2 ^ 24 := by
      have h1 : (M : ℚ) * 2 ^ e < 2 ^ (L + 1) := by
        rw [← hrepr]
        exact hLhi
      have h2 : (2 : ℚ) ^ (L + 1) ≤ 2 ^ (e + 24) := zpow_le_zpow_right₀ one_le_two (by omega)
      have h3 : (M : ℚ) * 2 ^ e < 2 ^ (e + 24) := lt_of_lt_of_le h1 h2
      have h4 : (M : ℚ) < 2 ^ (24 : ℤ) := by
        have h5 : (M : ℚ) = (M : ℚ) * 2 ^ e * 2 ^ (-e) := by
          rw [mul_assoc, ← zpow_add₀ (two_ne_zero (α := ℚ)), add_neg_cancel,
            zpow_zero, mul_one]
        rw [h5]
        calc (M : ℚ) * 2 ^ e * 2 ^ (-e) < 2 ^ (e + 24) * 2 ^ (-e) :=
              mul_lt_mul_of_pos_right h3 (by positivity)
          _ = 2 ^ (24 : ℤ) := by
              rw [← zpow_add₀ (two_ne_zero (α := ℚ))]
              congr 1
              omega
      have h6 : (M : ℚ) < ((2 ^ 24 : ℤ) : ℚ) := h4.trans_eq (by norm_num)
      exact_mod_cast h6
    have hsubn : M < 2 ^ 23 → e = -149 := by
      intro hMlt
      rcases hmax_cases with heL | h149
      · exfalso
        have hlow : (2 : ℚ) ^ (23 : ℤ) ≤ (M : ℚ) := by
          rw [← hxe, heL]
          have hstep : (2 : ℚ) ^ L * 2 ^ (-(L - 23)) ≤ |q| * 2 ^ (-(L - 23)) :=
            mul_le_mul_of_nonneg_right hLlo (by positivity)
          calc (2 : ℚ) ^ (23 : ℤ) = 2 ^ L * 2 ^ (-(L - 23)) := by
                rw [← zpow_add₀ (two_ne_zero (α := ℚ))]
                congr 1
                omega
            _ ≤ |q| * 2 ^ (-(L - 23)) := hstep
        have hlow2 : ((2 ^ 23 : ℤ) : ℚ) ≤ (M : ℚ) := by
          calc ((2 ^ 23 : ℤ) : ℚ) = (2 : ℚ) ^ (23 : ℤ) := by norm_num
            _ ≤ (M : ℚ) := hlow
        have : (2 ^ 23 : ℤ) ≤ M := by exact_mod_cast hlow2
        omega
      · exact h149
    have hLle : L ≤ 127 := by
      have hlt2 : (2 : ℚ) ^ L < 2 ^ (128 : ℤ) := lt_of_le_of_lt hLlo hlt
      have := (zpow_lt_zpow_iff_right₀ one_lt_two).mp hlt2
      omega
    have he104 : e ≤ 104 := by
      rcases hmax_cases with hc | hc <;> omega
    rw [hfloorM]
    by_cases hM23 : M.toNat < 2 ^ 23
    · -- subnormal pattern
      have he149 : e = -149 := hsubn (by omega)
      rw [if_pos hM23]
      rcases lt_or_le q 0 with hqneg | hqpos
      · rw [if_pos hqneg, bitsToF32]
        have hsi : (2 ^ 31 + M.toNat) / 2 ^ 31 % 2 = 1 := by omega
        have hE : (2 ^ 31 + M.toNat) / 2 ^ 23 % 2 ^ 8 = 0 := by omega
        have hf : (2 ^ 31 + M.toNat) % 2 ^ 23 = M.toNat := by omega
        simp only [hsi, hE, hf, if_true, if_false]
        rw [qmul_eq, Rat.mkRat_one, qp2_eq]
        have hMt : ((M.toNat : ℤ) : ℚ) = (M : ℚ) := by
          exact_mod_cast congrArg (fun t : ℤ => (t : ℚ)) (Int.toNat_of_nonneg hMpos.le)
        push_cast at hMt ⊢
        rw [hMt, ← he149]
        have habsneg : |q| = -q := abs_of_neg hqneg
        rw [habsneg] at hrepr
        linarith
      · rw [if_neg (not_lt.mpr hqpos), bitsToF32]
        have hsi : (0 + M.toNat) / 2 ^ 31 % 2 = 0 := by omega
        have hE : (0 + M.toNat) / 2 ^ 23 % 2 ^ 8 = 0 := by omega
        have hf : (0 + M.toNat) % 2 ^ 23 = M.toNat := by omega
        simp only [hsi, hE, hf, if_true, if_false]
        rw [qmul_eq, Rat.mkRat_one, qp2_eq]
        have hMt : ((M.toNat : ℤ) : ℚ) = (M : ℚ) := by
          exact_mod_cast congrArg (fun t : ℤ => (t : ℚ)) (Int.toNat_of_nonneg hMpos.le)
        push_cast at hMt ⊢
        rw [hMt, ← he149]
        have habspos : |q| = q := abs_of_nonneg hqpos
        rw [habspos] at hrepr
        linarith
    · -- normal pattern
      rw [if_neg hM23]
      set Ef := (e + 150).toNat with hEfdef
      have hEf1 : 1 ≤ Ef := by omega
      have hEf254 : Ef ≤ 254 := by omega
      have hMtlt : M.toNat < 2 ^ 24 := by omega
      rcases lt_or_le q 0 with hqneg | hqpos
      · rw [if_pos hqneg, bitsToF32]
        have hsi : (2 ^ 31 + Ef * 2 ^ 23 + (M.toNat - 2 ^ 23)) / 2 ^ 31 % 2 = 1 := by omega
        have hE : (2 ^ 31 + Ef * 2 ^ 23 + (M.toNat - 2 ^ 23)) / 2 ^ 23 % 2 ^ 8 = Ef := by
          omega
        have hf : (2 ^ 31 + Ef * 2 ^ 23 + (M.toNat - 2 ^ 23)) % 2 ^ 23 = M.toNat - 2 ^ 23 := by
          omega
        simp only [hsi, hE, hf, if_true, if_false, if_neg (show ¬ Ef = 255 by omega),
          if_neg (show ¬ Ef = 0 by omega)]
        rw [qmul_eq, Rat.mkRat_one, qp2_eq]
        have hmag : 2 ^ 23 + (M.toNat - 2 ^ 23) = M.toNat := by omega
        have hEfe : (Ef : ℤ) - 150 = e := by omega
        rw [hmag, hEfe]
        have hMt : ((M.toNat : ℤ) : ℚ) = (M : ℚ) := by
          exact_mod_cast congrArg (fun t : ℤ => (t : ℚ)) (Int.toNat_of_nonneg hMpos.le)
        push_cast at hMt ⊢
        rw [hMt]
        have habsneg : |q| = -q := abs_of_neg hqneg
        rw [habsneg] at hrepr
        linarith
      · rw [if_neg (not_lt.mpr hqpos), bitsToF32]
        have hsi : (0 + Ef * 2 ^ 23 + (M.toNat - 2 ^ 23)) / 2 ^ 31 % 2 = 0 := by omega
        have hE : (0 + Ef * 2 ^ 23 + (M.toNat - 2 ^ 23)) / 2 ^ 23 % 2 ^ 8 = Ef := by omega
        have hf : (0 + Ef * 2 ^ 23 + (M.toNat - 2 ^ 23)) % 2 ^ 23 = M.toNat - 2 ^ 23 := by
          omega
        simp only [hsi, hE, hf, if_true, if_false, if_neg (show ¬ Ef = 255 by omega),
          if_neg (show ¬ Ef = 0 by omega)]
        rw [qmul_eq, Rat.mkRat_one, qp2_eq]
        have hmag : 2 ^ 23 + (M.toNat - 2 ^ 23) = M.toNat := by omega
        have hEfe : (Ef : ℤ) - 150 = e := by omega
        rw [hmag, hEfe]
        have hMt : ((M.toNat : ℤ) : ℚ) = (M : ℚ) := by
          exact_mod_cast congrArg (fun t : ℤ => (t : ℚ)) (Int.toNat_of_nonneg hMpos.le)
        push_cast at hMt ⊢
        rw [hMt]
        have habspos : |q| = q := abs_of_nonneg hqpos
        rw [habspos] at hrepr
        linarith

/-- `truncQ` is the identity on integers. -/
theorem truncQ_intCast (z : ℤ) : truncQ (z : ℚ) = z := by
  rw [truncQ]
  split
  · exact Int.ceil_intCast z
  · exact Int.floor_intCast z

/-! ### Byte-assembly bridge and buffer lemmas -/

/-- `(a <<< k) ||| b = a * 2 ^ k + b` when `b < 2 ^ k`: shifted and
unshifted operands occupy disjoint bit ranges, so bitwise or is addition. -/
theorem shiftLeft_lor_eq_add (k a b : ℕ) (hb : b < 2 ^ k) :
    (a <<< k) ||| b = a * 2 ^ k + b := by
  rw [Nat.shiftLeft_eq, mul_comm a (2 ^ k), ← Nat.mul_add_lt_is_or hb a]

theorem getD_set_ne (l : List ℕ) (i j b : ℕ) (h : i ≠ j) :
    (l.set i b).getD j 0 = l.getD j 0 := by
  simp [List.getD_eq_getElem?_getD, List.getElem?_set_ne h]

theorem getD_set_self (l : List ℕ) (i b : ℕ) (h : i < l.length) :
    (l.set i b).getD i 0 = b := by
  simp [List.getD_eq_getElem?_getD, List.getElem?_set_self, h]

theorem getD_drop (l : List ℕ) (n i : ℕ) : (l.drop n).getD i 0 = l.getD (n + i) 0 := by
  simp [List.getD_eq_getElem?_getD, List.getElem?_drop]

theorem setBytes_length : ∀ (bs l : List ℕ) (pos : ℕ),
    (setBytes l pos bs).length = l.length := by
  intro bs
  induction bs with
  | nil => intro l pos; rfl
  | cons b t ih =>
    intro l pos
    rw [setBytes, ih, List.length_set]

theorem setBytes_getD_outside : ∀ (bs l : List ℕ) (pos i : ℕ),
    i < pos ∨ pos + bs.length ≤ i →
    (setBytes l pos bs).getD i 0 = l.getD i 0 := by
  intro bs
  induction bs with
  | nil => intro l pos i _; rfl
  | cons b t ih =>
    intro l pos i hout
    simp only [List.length_cons] at hout
    rw [setBytes]
    have hout2 : i < pos + 1 ∨ pos + 1 + t.length ≤ i := by omega
    rw [ih (l.set pos b) (pos + 1) i hout2]
    exact getD_set_ne l pos i b (by omega)

theorem setBytes_getD_inside : ∀ (bs l : List ℕ) (pos k : ℕ),
    pos + bs.length ≤ l.length → k < bs.length →
    (setBytes l pos bs).getD (pos + k) 0 = bs.getD k 0 := by
  intro bs
  induction bs with
  | nil => intro l pos k _ hk; simp at hk
  | cons b t ih =>
    intro l pos k hlen hk
    simp only [List.length_cons] at hlen hk
    rw [setBytes]
    match k with
    | 0 =>
      simp only [Nat.add_zero]
      have hout : (setBytes (l.set pos b) (pos + 1) t).getD pos 0 =
          (l.set pos b).getD pos 0 :=
        setBytes_getD_outside t (l.set pos b) (pos + 1) pos (Or.inl (by omega))
      rw [hout, getD_set_self l pos b (by omega)]
      rfl
    | k' + 1 =>
      have hstep : pos + (k' + 1) = (pos + 1) + k' := by omega
      rw [hstep]
      rw [ih (l.set pos b) (pos + 1) k' (by rw [List.length_set]; omega) (by omega)]
      rfl

/-! ### Association-list lemmas for the decoded mapping -/

theorem lookup_insertKV_self : ∀ (l : List (String × ℚ)) (k : String) (v : ℚ),
    List.lookup k (insertKV l k v) = some v := by
  intro l
  induction l with
  | nil => intro k v; simp [insertKV, List.lookup]
  | cons p t ih =>
    intro k v
    obtain ⟨pk, pv⟩ := p
    rw [insertKV]
    split
    · next h =>
      simp [List.lookup]
    · next h =>
      have hbeq : (k == pk) = false := by
        rw [beq_eq_false_iff_ne]
        intro hkp
        exact h hkp.symm
      simp only [List.lookup, hbeq]
      exact ih k v

theorem lookup_insertKV_ne : ∀ (l : List (String × ℚ)) (k k' : String) (v : ℚ),
    k' ≠ k → List.lookup k' (insertKV l k v) = List.lookup k' l := by
  intro l
  induction l with
  | nil =>
    intro k k' v hne
    simp [insertKV, List.lookup, beq_false_of_ne hne]
  | cons p t ih =>
    intro k k' v hne
    obtain ⟨pk, pv⟩ := p
    rw [insertKV]
    split
    · next h =>
      subst h
      simp [List.lookup, beq_false_of_ne hne]
    · next h =>
      cases hbeq : (k' == pk)
      · simp only [List.lookup, hbeq]
        exact ih k k' v hne
      · simp only [List.lookup, hbeq]

theorem mem_keys_insertKV : ∀ (l : List (String × ℚ)) (k s : String) (v : ℚ),
    s ∈ (insertKV l k v).map Prod.fst ↔ s = k ∨ s ∈ l.map Prod.fst := by
  intro l
  induction l with
  | nil => intro k s v; simp [insertKV]
  | cons p t ih =>
    intro k s v
    obtain ⟨pk, pv⟩ := p
    rw [insertKV]
    split
    · next h =>
      subst h
      simp
    · next h =>
      simp only [List.map_cons, List.mem_cons, ih]
      tauto

theorem nodup_keys_insertKV : ∀ (l : List (String × ℚ)) (k : String) (v : ℚ),
    (l.map Prod.fst).Nodup → ((insertKV l k v).map Prod.fst).Nodup := by
  intro l
  induction l with
  | nil => intro k v _; simp [insertKV]
  | cons p t ih =>
    intro k v hnd
    obtain ⟨pk, pv⟩ := p
    simp only [List.map_cons, List.nodup_cons] at hnd
    rw [insertKV]
    split
    · next h =>
      subst h
      simp only [List.map_cons, List.nodup_cons]
      exact hnd
    · next h =>
      simp only [List.map_cons, List.nodup_cons]
      refine ⟨?_, ih k v hnd.2⟩
      rw [mem_keys_insertKV]
      push_neg
      exact ⟨h, hnd.1⟩

/-! ### Facts about the decode fold -/

theorem parse_foldl_lookup_of_absent (payload : List ℕ) :
    ∀ (fs : List DataFieldConfig) (init : List (String × ℚ)) (s : String),
    (∀ f ∈ fs, f.sensorName ≠ s) →
    List.lookup s (fs.foldl
      (fun results field => insertKV results field.sensorName (parseValue payload field)) init)
      = List.lookup s init := by
  intro fs
  induction fs with
  | nil => intro init s _; rfl
  | cons f t ih =>
    intro init s habs
    rw [List.foldl_cons]
    rw [ih _ s (fun g hg => habs g (List.mem_cons_of_mem f hg))]
    exact lookup_insertKV_ne _ _ _ _ (fun h => habs f (List.mem_cons_self f t) h.symm)

theorem parse_foldl_lookup (payload : List ℕ) :
    ∀ (fs : List DataFieldConfig) (init : List (String × ℚ)) (fld : DataFieldConfig),
    fld ∈ fs → (fs.map DataFieldConfig.sensorName).Nodup →
    List.lookup fld.sensorName (fs.foldl
      (fun results field => insertKV results field.sensorName (parseValue payload field)) init)
      = some (parseValue payload fld) := by
  intro fs
  induction fs with
  | nil => intro init fld h _; simp at h
  | cons f t ih =>
    intro init fld hmem hnd
    simp only [List.map_cons, List.nodup_cons] at hnd
    rw [List.foldl_cons]
    rcases List.mem_cons.mp hmem with rfl | hmem2
    · rw [parse_foldl_lookup_of_absent payload t _ fld.sensorName
        (by
          intro g hg hgname
          exact hnd.1 (by rw [← hgname]; exact List.mem_map_of_mem _ hg))]
      exact lookup_insertKV_self _ _ _
    · exact ih _ fld hmem2 hnd.2

theorem mem_keys_parse_foldl (payload : List ℕ) :
    ∀ (fs : List DataFieldConfig) (init : List (String × ℚ)) (s : String),
    (s ∈ (fs.foldl
      (fun results field => insertKV results field.sensorName (parseValue payload field))
      init).map Prod.fst
    ↔ s ∈ init.map Prod.fst ∨ s ∈ fs.map DataFieldConfig.sensorName) := by
  intro fs
  induction fs with
  | nil => intro init s; simp
  | cons f t ih =>
    intro init s
    rw [List.foldl_cons, ih, mem_keys_insertKV]
    simp only [List.map_cons, List.mem_cons]
    tauto

theorem nodup_keys_parse_foldl (payload : List ℕ) :
    ∀ (fs : List DataFieldConfig) (init : List (String × ℚ)),
    (init.map Prod.fst).Nodup →
    ((fs.foldl
      (fun results field => insertKV results field.sensorName (parseValue payload field))
      init).map Prod.fst).Nodup := by
  intro fs
  induction fs with
  | nil => intro init h; exact h
  | cons f t ih =>
    intro init h
    rw [List.foldl_cons]
    exact ih _ (nodup_keys_insertKV _ _ _ h)

/-! ### Facts about the encode fold -/

theorem packFieldBytes_length_le (s : ℚ) (t : DataType) :
    (packFieldBytes s t).length ≤ width t := by
  cases t <;> simp [packFieldBytes, width]

theorem pack_foldl_length (values : List (String × ℚ)) :
    ∀ (fs : List DataFieldConfig) (buf : List ℕ),
    (fs.foldl (fun buf field =>
      match List.lookup field.sensorName values with
      | none => buf
      | some v => setBytes buf (2 + field.offset)
          (packFieldBytes (fdiv v field.scale) field.dataType)) buf).length = buf.length := by
  intro fs
  induction fs with
  | nil => intro buf; rfl
  | cons f t ih =>
    intro buf
    rw [List.foldl_cons, ih]
    rcases hl : List.lookup f.sensorName values with _ | v
    · simp only [hl]
    · simp only [hl]
      exact setBytes_length _ _ _

theorem pack_foldl_getD_frame (values : List (String × ℚ)) :
    ∀ (fs : List DataFieldConfig) (buf : List ℕ) (i : ℕ),
    (∀ f ∈ fs, List.lookup f.sensorName values ≠ none →
      i < 2 + f.offset ∨ 2 + f.offset + width f.dataType ≤ i) →
    (fs.foldl (fun buf field =>
      match List.lookup field.sensorName values with
      | none => buf
      | some v => setBytes buf (2 + field.offset)
          (packFieldBytes (fdiv v field.scale) field.dataType)) buf).getD i 0
      = buf.getD i 0 := by
  intro fs
  induction fs with
  | nil => intro buf i _; rfl
  | cons f t ih =>
    intro buf i hcond
    rw [List.foldl_cons]
    rw [ih _ i (fun g hg => hcond g (List.mem_cons_of_mem f hg))]
    rcases hl : List.lookup f.sensorName values with _ | v
    · simp only [hl]
    · simp only [hl]
      have hrange := hcond f (List.mem_cons_self f t) (by rw [hl]; exact fun h => Option.noConfusion h)
      have hlen := packFieldBytes_length_le (fdiv v f.scale) f.dataType
      exact setBytes_getD_outside _ _ _ _ (by omega)

/-! ### Mid-level characterizations of decode and encode -/

/-- Reading two bytes as the C expression `data[0] | (data[1] << 8)` is the
little-endian value when the low byte is an actual byte. -/
theorem le16_read (b0 b1 : ℕ) (h : b0 < 256) : b0 ||| (b1 <<< 8) = b0 + 256 * b1 := by
  rw [Nat.lor_comm, shiftLeft_lor_eq_add 8 b1 b0 h]
  ring

/-- A field whose byte range does not fit in the payload parses to `0`. -/
theorem parseValue_out_of_range (payload : List ℕ) (field : DataFieldConfig)
    (h : payload.length < field.offset + width field.dataType) :
    parseValue payload field = 0 := by
  rw [parseValue]
  split
  · rfl
  · next hoff =>
    push_neg at hoff
    rcases htype : field.dataType <;> simp only [htype, width] at h ⊢ <;>
      first
      | exact absurd hoff (by omega)
      | (rw [if_neg (by omega)]; exact fmul_zero_left _)

/-- On a buffer passing all three checks, decode is the per-field fold over
the payload. -/
theorem parseManufacturerData_eq (data : List ℕ) (format : ManufacturerDataFormat)
    (hid : data.getD 0 0 ||| (data.getD 1 0 <<< 8) = format.companyId)
    (hlen : 2 + format.totalLength ≤ data.length) :
    parseManufacturerData data format = format.dataFields.foldl
      (fun results field =>
        insertKV results field.sensorName (parseValue (data.drop 2) field)) [] := by
  rw [parseManufacturerData, if_neg (by omega), if_neg (not_not_intro hid),
    if_neg (by omega)]

/-- Decode fails (empty mapping) on any buffer shorter than
`2 + totalLength`. -/
theorem parseManufacturerData_eq_nil_of_short (data : List ℕ)
    (format : ManufacturerDataFormat) (h : data.length < 2 + format.totalLength) :
    parseManufacturerData data format = [] := by
  simp only [parseManufacturerData]
  repeat' split
  all_goals first | rfl | omega

/-- Decode fails (empty mapping) when the leading identifier mismatches. -/
theorem parseManufacturerData_eq_nil_of_mismatch (data : List ℕ)
    (format : ManufacturerDataFormat) (hlen : 2 ≤ data.length)
    (hid : data.getD 0 0 ||| (data.getD 1 0 <<< 8) ≠ format.companyId) :
    parseManufacturerData data format = [] := by
  simp only [parseManufacturerData]
  rw [if_neg (by omega), if_pos hid]

/-- Encode always produces exactly `2 + totalLength` bytes. -/
theorem packManufacturerData_length (values : List (String × ℚ))
    (format : ManufacturerDataFormat) :
    (packManufacturerData values format).length = 2 + format.totalLength := by
  rw [packManufacturerData, pack_foldl_length]
  simp only [List.length_append, List.length_cons, List.length_nil, List.length_replicate]

/-- The first two bytes of an encoded buffer are the company id,
little-endian. -/
theorem packManufacturerData_getD_id (values : List (String × ℚ))
    (format : ManufacturerDataFormat) :
    (packManufacturerData values format).getD 0 0 = format.companyId % 256 ∧
    (packManufacturerData values format).getD 1 0 = format.companyId / 256 % 256 := by
  rw [packManufacturerData]
  constructor <;>
    rw [pack_foldl_getD_frame values _ _ _ (fun f _ _ => Or.inl (by omega))] <;> rfl

/-- A payload byte not covered by any present field stays zero. -/
theorem packManufacturerData_getD_zero (values : List (String × ℚ))
    (format : ManufacturerDataFormat) (i : ℕ)
    (hcond : ∀ f ∈ format.dataFields, List.lookup f.sensorName values ≠ none →
      i < f.offset ∨ f.offset + width f.dataType ≤ i) :
    (packManufacturerData values format).getD (2 + i) 0 = 0 := by
  rw [packManufacturerData, pack_foldl_getD_frame values _ _ _
    (fun f hf hp => by
      rcases hcond f hf hp with h | h
      · exact Or.inl (by omega)
      · exact Or.inr (by omega))]
  have hidx : (2 + i) -
      ([format.companyId % 256, format.companyId / 256 % 256] : List ℕ).length = i := by
    simp
  rw [List.getD_eq_getElem?_getD, List.getElem?_append_right (by simp), hidx,
    List.getElem?_replicate]
  split <;> rfl

/-! ### Concrete formats used by the claims -/

/-- The concrete format of the specification's test scenario (§8): identifier
`0x1001`, `battery` (offset 0, `UINT8`, scale 1) and `temperature` (offset 1,
`INT16_BE`, scale `0.01f`), `totalLength` 3. -/
def demoFormat : ManufacturerDataFormat :=
  { companyId := 0x1001
    dataFields := [
      { sensorName := "battery", offset := 0, dataType := .UINT8, scale := 1 },
      { sensorName := "temperature", offset := 1, dataType := .INT16_BE,
        scale := fround (mkRat 1 100) }]
    totalLength := 3 }

/-- A format with a field (`b`, `UINT16_BE` at offset 0) whose byte range
exceeds `totalLength = 1`: decode succeeds on a 3-byte buffer but the field
cannot be read in full. -/
def outOfRangeFormat : ManufacturerDataFormat :=
  { companyId := 0xFFFF
    dataFields := [
      { sensorName := "a", offset := 0, dataType := .UINT8, scale := 1 },
      { sensorName := "b", offset := 0, dataType := .UINT16_BE, scale := 1 }]
    totalLength := 1 }

/-- A lone `UINT32_BE` field at offset 0, scale 1. -/
def u32beField : DataFieldConfig :=
  { sensorName := "raw32", offset := 0, dataType := .UINT32_BE, scale := 1 }

/-- A format holding only the `UINT32_BE` field above, `totalLength` 4. -/
def u32Format : ManufacturerDataFormat :=
  { companyId := 0xFFFF
    dataFields := [u32beField]
    totalLength := 4 }

/-- One `INT16_BE` field with scale `0.1f`. -/
def tenthScaleI16Format : ManufacturerDataFormat :=
  { companyId := 0xFFFF
    dataFields := [
      { sensorName := "y", offset := 0, dataType := .INT16_BE,
        scale := fround (mkRat 1 10) }]
    totalLength := 2 }

/-- One `FLOAT_LE` field with scale `0.1f`. -/
def tenthScaleFloatFormat : ManufacturerDataFormat :=
  { companyId := 0xFFFF
    dataFields := [
      { sensorName := "z", offset := 0, dataType := .FLOAT_LE,
        scale := fround (mkRat 1 10) }]
    totalLength := 4 }

/-! ### Claims -/

/-- Claim C1 (counterexample): decode does NOT skip a field whose byte range
exceeds the payload; it inserts it with value `0.0` (here field `b` of
`outOfRangeFormat`).  And truncating a known-good buffer by one byte does not
merely drop the last field: the whole decode aborts, so even the in-range
`battery` field of `demoFormat` vanishes. -/
theorem c1_counterexample :
    List.lookup "b" (parseManufacturerData [0xFF, 0xFF, 5] outOfRangeFormat) = some 0 ∧
    List.lookup "battery" (parseManufacturerData [0x01, 0x10, 0x57, 0x09] demoFormat)
      = none := by
  decide

/-- Claim C1 (amended): whenever decode does not abort and field names are
unique, EVERY field gets an entry: an in-range field decodes to its parsed
value, a field whose `offset + width` exceeds the payload length maps to `0.0`
(it is not skipped), and truncating a known-good buffer by one byte makes the
whole decode abort with an empty result. -/
theorem c1_amended (format : ManufacturerDataFormat) (data : List ℕ)
    (hid : data.getD 0 0 ||| (data.getD 1 0 <<< 8) = format.companyId)
    (hlen : 2 + format.totalLength ≤ data.length)
    (hnodup : (format.dataFields.map DataFieldConfig.sensorName).Nodup) :
    (∀ f ∈ format.dataFields,
      List.lookup f.sensorName (parseManufacturerData data format)
        = some (parseValue (data.drop 2) f) ∧
      (data.length - 2 < f.offset + width f.dataType →
        List.lookup f.sensorName (parseManufacturerData data format) = some 0)) ∧
    (data.length = 2 + format.totalLength →
      parseManufacturerData data.dropLast format = []) := by
  constructor
  · intro f hf
    rw [parseManufacturerData_eq data format hid hlen]
    refine ⟨parse_foldl_lookup _ _ _ f hf hnodup, ?_⟩
    intro hrange
    rw [parse_foldl_lookup _ _ _ f hf hnodup,
      parseValue_out_of_range _ _ (by rw [List.length_drop]; omega)]
  · intro hexact
    apply parseManufacturerData_eq_nil_of_short
    rw [List.length_dropLast]
    omega

/-- Witness for `c1_amended` at `outOfRangeFormat` on the buffer
`FF FF 05`. -/
theorem c1_amended_witness :
    List.lookup "b" (parseManufacturerData [0xFF, 0xFF, 5] outOfRangeFormat) = some 0 ∧
    parseManufacturerData ([0x01, 0x10, 0x57, 0x09, 0x29].dropLast) demoFormat = [] :=
  ⟨((c1_amended outOfRangeFormat [0xFF, 0xFF, 5] (by decide) (by decide) (by decide)).1
      { sensorName := "b", offset := 0, dataType := .UINT16_BE, scale := 1 }
      (by decide)).2 (by decide),
    (c1_amended demoFormat [0x01, 0x10, 0x57, 0x09, 0x29] (by decide) (by decide)
      (by decide)).2 (by decide)⟩

/-- Claim C2: on a buffer of length ≥ 2 whose first two bytes (read
little-endian) differ from the format's identifier, decode fails with no
decoded fields, regardless of the payload; likewise decode fails on every
buffer shorter than `2 + totalLength`.  (The code signals both failures by
the same observable, an empty mapping.) -/
theorem c2_decode_failure_modes (format : ManufacturerDataFormat) (b : List ℕ)
    (hbytes : ∀ x ∈ b, x < 256) :
    (2 ≤ b.length → b.getD 0 0 + 256 * b.getD 1 0 ≠ format.companyId →
      parseManufacturerData b format = []) ∧
    (b.length < 2 + format.totalLength → parseManufacturerData b format = []) := by
  constructor
  · intro hlen hne
    apply parseManufacturerData_eq_nil_of_mismatch b format hlen
    have hb0 : b.getD 0 0 < 256 := by
      apply hbytes
      rw [List.getD_eq_getElem?_getD]
      have hg : b[0]? = some b[0] := List.getElem?_eq_getElem (by omega)
      rw [hg]
      exact List.getElem_mem _
    rw [le16_read _ _ hb0]
    exact hne
  · exact (parseManufacturerData_eq_nil_of_short b format ·)

/-- Witness for `c2_decode_failure_modes`: an identifier mismatch and a short
buffer, both on `demoFormat`. -/
theorem c2_witness :
    parseManufacturerData [0, 0, 0, 0, 0] demoFormat = [] ∧
    parseManufacturerData [0x01] demoFormat = [] :=
  ⟨(c2_decode_failure_modes demoFormat [0, 0, 0, 0, 0] (by decide)).1 (by decide) (by decide),
    (c2_decode_failure_modes demoFormat [0x01] (by decide)).2 (by decide)⟩

/-- Claim C4: encode always returns exactly `2 + totalLength` bytes, the
first two being the identifier little-endian, and every payload byte not
covered by a field whose name is present in the value mapping is zero (an
absent field leaves its zero bytes untouched, with no error). -/
theorem c4_encode_length_and_zeros (format : ManufacturerDataFormat)
    (values : List (String × ℚ)) (hid16 : format.companyId < 65536)
    (hinv : ∀ f ∈ format.dataFields, f.offset + width f.dataType ≤ format.totalLength) :
    (packManufacturerData values format).length = 2 + format.totalLength ∧
    (packManufacturerData values format).getD 0 0 +
      256 * (packManufacturerData values format).getD 1 0 = format.companyId ∧
    (∀ i < format.totalLength,
      (∀ f ∈ format.dataFields, List.lookup f.sensorName values ≠ none →
        i < f.offset ∨ f.offset + width f.dataType ≤ i) →
      (packManufacturerData values format).getD (2 + i) 0 = 0) := by
  refine ⟨packManufacturerData_length values format, ?_, ?_⟩
  · obtain ⟨h0, h1⟩ := packManufacturerData_getD_id values format
    rw [h0, h1]
    omega
  · intro i _ hcond
    exact packManufacturerData_getD_zero values format i hcond

/-- Witness for `c4_encode_length_and_zeros`: `demoFormat` with only the
battery supplied; payload byte 1 (temperature's first byte) stays zero and
the total length is 5. -/
theorem c4_witness :
    (packManufacturerData [("battery", (87 : ℚ))] demoFormat).getD (2 + 1) 0 = 0 ∧
    (packManufacturerData [("battery", (87 : ℚ))] demoFormat).length =
      2 + demoFormat.totalLength :=
  ⟨(c4_encode_length_and_zeros demoFormat [("battery", 87)] (by decide) (by decide)).2.2
      1 (by decide) (by decide),
    (c4_encode_length_and_zeros demoFormat [("battery", 87)] (by decide) (by decide)).1⟩

/-- Claim C5 (code bug): a `UINT32_BE` pattern with the top bit set is parsed
through a signed 32-bit accumulator, so `FF FF FF FF` decodes to `-1`, not to
`4294967295` as the unsigned documentation of `UINT32_BE` requires. -/
theorem c5_uint32_signed_read :
    parseValue [0xFF, 0xFF, 0xFF, 0xFF] u32beField = -1 ∧
    parseValue [0xFF, 0xFF, 0xFF, 0xFF] u32beField ≠ 4294967295 := by
  decide

/-- Claim C6 (counterexample): `getSensorGroupFromName` does not lowercase its
input; matching is case-sensitive, so `"CURRENT"` falls through to the
default Environmental group while `"current"` is classified as Current. -/
theorem c6_counterexample :
    getSensorGroupFromName "current" = SensorGroup.CURRENT ∧
    getSensorGroupFromName "CURRENT" = SensorGroup.ENVIRONMENTAL ∧
    SensorGroup.CURRENT ≠ SensorGroup.ENVIRONMENTAL := by
  decide

/-- Claim C6 (amended): `getSensorGroupFromName` matches its input
case-SENSITIVELY (no lowercasing) against the fixed keyword table, groups
tried in the priority order Environmental → AirQuality → Motion → Ambient →
System → Current, first match wins, Environmental as the no-match default —
i.e. it coincides with the table-driven classifier `classifyByPriorityTable`
written from the specification's words, minus the lowercasing. -/
theorem c6_amended (s : String) : getSensorGroupFromName s = classifyByPriorityTable s := by
  have hENV : (strHasSub s "bmp" || strHasSub s "hdc" || strHasSub s "sht" ||
      strHasSub s "dht" || strHasSub s "aht" || strHasSub s "temperature" ||
      strHasSub s "humidity" || strHasSub s "pressure")
      = matchesGroup s .ENVIRONMENTAL := by
    simp [matchesGroup, groupKeywords, Bool.or_assoc]
  have hAQ : (strHasSub s "ens" || strHasSub s "sgp" || strHasSub s "ccs" ||
      strHasSub s "aqi" || strHasSub s "co2" || strHasSub s "tvoc")
      = matchesGroup s .AIR_QUALITY := by
    simp [matchesGroup, groupKeywords, Bool.or_assoc]
  have hMOT : (strHasSub s "mpu" || strHasSub s "bmi" || strHasSub s "bmm" ||
      strHasSub s "lsm" || strHasSub s "accel" || strHasSub s "gyro" ||
      strHasSub s "magnet") = matchesGroup s .MOTION := by
    simp [matchesGroup, groupKeywords, Bool.or_assoc]
  have hAMB : (strHasSub s "veml" || strHasSub s "tsl" || strHasSub s "bh1" ||
      strHasSub s "light" || strHasSub s "color" || strHasSub s "brightness")
      = matchesGroup s .AMBIENT := by
    simp [matchesGroup, groupKeywords, Bool.or_assoc]
  have hSYS : (strHasSub s "bq" || strHasSub s "ip5306" || strHasSub s "battery" ||
      strHasSub s "power" || strHasSub s "charging") = matchesGroup s .SYSTEM := by
    simp [matchesGroup, groupKeywords, Bool.or_assoc]
  have hCUR : (strHasSub s "sct" || strHasSub s "current") = matchesGroup s .CURRENT := by
    simp [matchesGroup, groupKeywords, Bool.or_assoc]
  rw [getSensorGroupFromName, hENV, hAQ, hMOT, hAMB, hSYS, hCUR, classifyByPriorityTable]
  cases h1 : matchesGroup s .ENVIRONMENTAL
  · cases h2 : matchesGroup s .AIR_QUALITY
    · cases h3 : matchesGroup s .MOTION
      · cases h4 : matchesGroup s .AMBIENT
        · cases h5 : matchesGroup s .SYSTEM
          · cases h6 : matchesGroup s .CURRENT
            · simp [List.find?, h1, h2, h3, h4, h5, h6]
            · simp [List.find?, h1, h2, h3, h4, h5, h6]
          · simp [List.find?, h1, h2, h3, h4, h5]
        · simp [List.find?, h1, h2, h3, h4]
      · simp [List.find?, h1, h2, h3]
    · simp [List.find?, h1, h2]
  · simp [List.find?, h1]

/-- Claim C7 (counterexample): the canonical formats of two different sensor
groups share the same 16-bit identifier (`0xFFFF`), so the identifier part
of the registry is not a bijection. -/
theorem c7_counterexample :
    (profileForGroup .ENVIRONMENTAL).manufacturerFormat.companyId =
      (profileForGroup .MOTION).manufacturerFormat.companyId ∧
    SensorGroup.ENVIRONMENTAL ≠ SensorGroup.MOTION := by
  decide

/-- Claim C7 (amended): each sensor group maps to a canonical profile and the
registry is injective in profile name and in service UUID — but every one of
the six canonical formats carries the single identifier `0xFFFF`: the
identifier map is constant, not a bijection. -/
theorem c7_amended :
    (∀ g : SensorGroup, (profileForGroup g).manufacturerFormat.companyId = 0xFFFF) ∧
    (∀ g1 g2 : SensorGroup, g1 ≠ g2 →
      (profileForGroup g1).profileName ≠ (profileForGroup g2).profileName ∧
      getServiceUUIDForGroup g1 ≠ getServiceUUIDForGroup g2) := by
  constructor
  · intro g
    cases g <;> rfl
  · intro g1 g2 hne
    cases g1 <;> cases g2 <;> first | (exact absurd rfl hne) | (constructor <;> decide)

/-- Witness for `c7_amended` at Environmental vs Motion. -/
theorem c7_witness :
    (profileForGroup .ENVIRONMENTAL).profileName ≠ (profileForGroup .MOTION).profileName ∧
    getServiceUUIDForGroup .ENVIRONMENTAL ≠ getServiceUUIDForGroup .MOTION :=
  c7_amended.2 SensorGroup.ENVIRONMENTAL SensorGroup.MOTION (by decide)

/-- Claim C8 (counterexample): the specification's byte string is wrong: raw
temperature 2345 is `0x929`, so encode yields `01 10 57 09 29`, not
`01 10 57 09 2D`; and decoding the claimed bytes `01 10 57 09 2D` gives a
temperature above 23.46 °C, not 23.45 °C. -/
theorem c8_counterexample :
    packManufacturerData [("battery", 87), ("temperature", fround (mkRat 2345 100))]
      demoFormat ≠ [0x01, 0x10, 0x57, 0x09, 0x2D] ∧
    List.lookup "temperature"
      (parseManufacturerData [0x01, 0x10, 0x57, 0x09, 0x2D] demoFormat)
      = some (fmul 2349 (fround (mkRat 1 100))) ∧
    mkRat 2346 100 < fmul 2349 (fround (mkRat 1 100)) := by
  decide

/-- Claim C8 (amended): encoding `{battery: 87, temperature: 23.45f}` with
`demoFormat` yields exactly `01 10 57 09 29`, and decoding those five bytes
returns battery = 87 exactly and temperature = `12294553/2^19`, which is
within one unit in the last place (`2^(-19)`) of 23.45. -/
theorem c8_amended :
    packManufacturerData [("battery", 87), ("temperature", fround (mkRat 2345 100))]
      demoFormat = [0x01, 0x10, 0x57, 0x09, 0x29] ∧
    List.lookup "battery" (parseManufacturerData [0x01, 0x10, 0x57, 0x09, 0x29] demoFormat)
      = some 87 ∧
    List.lookup "temperature"
      (parseManufacturerData [0x01, 0x10, 0x57, 0x09, 0x29] demoFormat)
      = some (mkRat 12294553 (2 ^ 19)) ∧
    |mkRat 12294553 (2 ^ 19) - mkRat 2345 100| < (2 : ℚ) ^ (-19 : ℤ) := by
  refine ⟨by decide, by decide, by decide, ?_⟩
  rw [Rat.mkRat_eq_divInt, Rat.divInt_eq_div, Rat.mkRat_eq_divInt, Rat.divInt_eq_div]
  push_cast
  rw [abs_sub_comm, abs_of_nonneg (by norm_num)]
  norm_num

/-- Claim C9: `findProfileByDeviceName` returns the first profile in list
order whose `deviceName` pattern occurs in the observed name, and `none`
(not an error) when no pattern matches. -/
theorem c9_find_first (name : String) (profiles : List DeviceProfile) :
    (findProfileByDeviceName name profiles = none ↔
      ∀ p ∈ profiles, strHasSub name p.deviceName = false) ∧
    (∀ p, findProfileByDeviceName name profiles = some p →
      strHasSub name p.deviceName = true ∧
      ∃ l1 l2, profiles = l1 ++ p :: l2 ∧
        ∀ q ∈ l1, strHasSub name q.deviceName = false) := by
  induction profiles with
  | nil =>
    constructor
    · simp [findProfileByDeviceName]
    · intro p hp
      rw [findProfileByDeviceName] at hp
      cases hp
  | cons q rest ih =>
    rw [findProfileByDeviceName]
    cases hB : strHasSub name q.deviceName
    · rw [if_neg (by simp [hB])]
      constructor
      · constructor
        · intro hn p hp
          rcases List.mem_cons.mp hp with rfl | hp2
          · exact hB
          · exact ih.1.mp hn p hp2
        · intro hall
          exact ih.1.mpr fun p hp => hall p (List.mem_cons_of_mem q hp)
      · intro p hp
        obtain ⟨hsub, l1, l2, heq, hpre⟩ := ih.2 p hp
        refine ⟨hsub, q :: l1, l2, by rw [heq]; rfl, ?_⟩
        intro r hr
        rcases List.mem_cons.mp hr with rfl | hr2
        · exact hB
        · exact hpre r hr2
    · rw [if_pos rfl]
      constructor
      · constructor
        · intro hcon
          cases hcon
        · intro hall
          have hc := hall q (List.mem_cons_self q rest)
          rw [hB] at hc
          cases hc
      · intro p hp
        injection hp with hqp
        subst hqp
        exact ⟨hB, [], rest, rfl, fun r hr => absurd hr (List.not_mem_nil r)⟩

/-- Witness for `c9_find_first`: no profile of the registry pair matches the
name `"NoMatch"`, so lookup returns `none`. -/
theorem c9_witness :
    findProfileByDeviceName "NoMatch"
      [createEnvironmentalSensorProfile, createCurrentSensorProfile] = none :=
  (c9_find_first "NoMatch"
    [createEnvironmentalSensorProfile, createCurrentSensorProfile]).1.mpr (by decide)

/-- Claim C10: whenever `parseManufacturerData` passes the identifier and
length checks (and field names are unique), the decoded mapping has
duplicate-free keys equal to the set of field names — every field
contributes exactly one entry — and a field whose byte range lies outside
the payload contributes the value `0.0` rather than being absent. -/
theorem c10_keys_complete (format : ManufacturerDataFormat) (data : List ℕ)
    (hid : data.getD 0 0 ||| (data.getD 1 0 <<< 8) = format.companyId)
    (hlen : 2 + format.totalLength ≤ data.length)
    (hnodup : (format.dataFields.map DataFieldConfig.sensorName).Nodup) :
    ((parseManufacturerData data format).map Prod.fst).Nodup ∧
    (∀ s, s ∈ (parseManufacturerData data format).map Prod.fst ↔
      s ∈ format.dataFields.map DataFieldConfig.sensorName) ∧
    (∀ f ∈ format.dataFields, data.length - 2 < f.offset + width f.dataType →
      List.lookup f.sensorName (parseManufacturerData data format) = some 0) := by
  rw [parseManufacturerData_eq data format hid hlen]
  refine ⟨nodup_keys_parse_foldl _ _ _ (by simp), ?_, ?_⟩
  · intro s
    rw [mem_keys_parse_foldl]
    simp
  · intro f hf hrange
    rw [parse_foldl_lookup _ _ _ f hf hnodup,
      parseValue_out_of_range _ _ (by rw [List.length_drop]; omega)]

/-- Witness for `c10_keys_complete` at `outOfRangeFormat` on `FF FF 05`. -/
theorem c10_witness :
    ((parseManufacturerData [0xFF, 0xFF, 5] outOfRangeFormat).map Prod.fst).Nodup ∧
    List.lookup "b" (parseManufacturerData [0xFF, 0xFF, 5] outOfRangeFormat) = some 0 :=
  ⟨(c10_keys_complete outOfRangeFormat [0xFF, 0xFF, 5] (by decide) (by decide)
      (by decide)).1,
    (c10_keys_complete outOfRangeFormat [0xFF, 0xFF, 5] (by decide) (by decide)
      (by decide)).2.2
      { sensorName := "b", offset := 0, dataType := .UINT16_BE, scale := 1 }
      (by decide) (by decide)⟩

/-- Claim C3 (counterexample): the round-trip claim fails three ways.
(a) `UINT32` fields are never written by `packManufacturerData` (they fall
into the switch's `default: break`), so the integral in-range value 1
decodes to 0.  (b) For an integer field with scale `0.1f` and `v = 0.9f`,
the quotient `v / scale` is exactly the integer 9, yet decode returns
`9 * 0.1f ≠ 0.9f`.  (c) A `FLOAT` field with scale `0.1f` fails to
round-trip the binary32 value `6710887/2^26`. -/
theorem c3_counterexample :
    (List.lookup "raw32" (parseManufacturerData
      (packManufacturerData [("raw32", 1)] u32Format) u32Format) = some 0 ∧ (0 : ℚ) ≠ 1) ∧
    (fdiv (fround (mkRat 9 10)) (fround (mkRat 1 10)) = 9 ∧
      List.lookup "y" (parseManufacturerData
        (packManufacturerData [("y", fround (mkRat 9 10))] tenthScaleI16Format)
        tenthScaleI16Format) = some (fmul 9 (fround (mkRat 1 10))) ∧
      fmul 9 (fround (mkRat 1 10)) ≠ fround (mkRat 9 10)) ∧
    List.lookup "z" (parseManufacturerData
      (packManufacturerData [("z", mkRat 6710887 (2 ^ 26))] tenthScaleFloatFormat)
      tenthScaleFloatFormat) ≠ some (mkRat 6710887 (2 ^ 26)) := by
  decide

/-- Value constraints under which a field round-trips exactly: an integral
value within the target type's range for the integer wire types (no
constraint can make `UINT32` work: the encoder never writes those fields),
and an exact binary32 value below the overflow threshold for the float wire
types. -/
def fieldFits (v : ℚ) : DataType → Prop
  | .UINT8 => v.den = 1 ∧ 0 ≤ v.num ∧ v.num < 256
  | .INT8 => v.den = 1 ∧ -128 ≤ v.num ∧ v.num < 128
  | .UINT16_LE => v.den = 1 ∧ 0 ≤ v.num ∧ v.num < 65536
  | .UINT16_BE => v.den = 1 ∧ 0 ≤ v.num ∧ v.num < 65536
  | .INT16_LE => v.den = 1 ∧ -32768 ≤ v.num ∧ v.num < 32768
  | .INT16_BE => v.den = 1 ∧ -32768 ≤ v.num ∧ v.num < 32768
  | .UINT32_LE => False
  | .UINT32_BE => False
  | .FLOAT_LE => fround v = v ∧ qabs v < qp2 128
  | .FLOAT_BE => fround v = v ∧ qabs v < qp2 128

/-- Reassembling the four little-endian byte fields of a 32-bit word. -/
theorem bytes4_reassemble (b : ℕ) :
    b % 256 + b / 2 ^ 8 % 256 * 2 ^ 8 + b / 2 ^ 16 % 256 * 2 ^ 16 +
      b / 2 ^ 24 % 256 * 2 ^ 24 = b % 2 ^ 32 := by
  omega

/-- `bitsToF32` only looks at the low 32 bits. -/
theorem bitsToF32_mod32 (b : ℕ) : bitsToF32 (b % 2 ^ 32) = bitsToF32 b := by
  have h1 : b % 2 ^ 32 / 2 ^ 31 % 2 = b / 2 ^ 31 % 2 := by omega
  have h2 : b % 2 ^ 32 / 2 ^ 23 % 2 ^ 8 = b / 2 ^ 23 % 2 ^ 8 := by omega
  have h3 : b % 2 ^ 32 % 2 ^ 23 = b % 2 ^ 23 := by omega
  rw [bitsToF32, bitsToF32, h1, h2, h3]

/-- Claim C3 (amended): for a valid format — fields in range, pairwise
non-overlapping, unique names — in which every field has scale `1.0` and no
field has a `UINT32` wire type, and a value mapping supplying every field
with a value the field's wire type can represent (`fieldFits`),
decode ∘ encode restores every field's value exactly. -/
theorem c3_amended (format : ManufacturerDataFormat) (values : List (String × ℚ))
    (hid16 : format.companyId < 65536)
    (hinv : ∀ f ∈ format.dataFields, f.offset + width f.dataType ≤ format.totalLength)
    (hnodup : (format.dataFields.map DataFieldConfig.sensorName).Nodup)
    (hdisj : format.dataFields.Pairwise (fun f g =>
      f.offset + width f.dataType ≤ g.offset ∨ g.offset + width g.dataType ≤ f.offset))
    (hscale : ∀ f ∈ format.dataFields, f.scale = 1)
    (hvals : ∀ f ∈ format.dataFields, ∃ v, List.lookup f.sensorName values = some v ∧
      fieldFits v f.dataType) :
    ∀ f ∈ format.dataFields,
      List.lookup f.sensorName
        (parseManufacturerData (packManufacturerData values format) format)
        = List.lookup f.sensorName values := by
  intro f hf
  obtain ⟨v, hv, hfits⟩ := hvals f hf
  have hs1 : f.scale = 1 := hscale f hf
  have hwid : f.offset + width f.dataType ≤ format.totalLength := hinv f hf
  have hlenbuf : (packManufacturerData values format).length = 2 + format.totalLength :=
    packManufacturerData_length values format
  have hid : (packManufacturerData values format).getD 0 0 |||
      ((packManufacturerData values format).getD 1 0 <<< 8) = format.companyId := by
    obtain ⟨h0, h1⟩ := packManufacturerData_getD_id values format
    rw [h0, h1, le16_read _ _ (by omega)]
    omega
  rw [parseManufacturerData_eq _ format hid (by omega),
    parse_foldl_lookup _ _ _ f hf hnodup, hv]
  congr 1
  obtain ⟨l1, l2, hsplit⟩ := List.append_of_mem hf
  have hd2 : ∀ g ∈ l2, f.offset + width f.dataType ≤ g.offset ∨
      g.offset + width g.dataType ≤ f.offset := by
    rw [hsplit] at hdisj
    exact (List.pairwise_cons.mp (List.pairwise_append.mp hdisj).2.1).1
  have hlenle := packFieldBytes_length_le (fdiv v f.scale) f.dataType
  have hbytes : ∀ j < (packFieldBytes (fdiv v f.scale) f.dataType).length,
      (packManufacturerData values format).getD (2 + f.offset + j) 0
        = (packFieldBytes (fdiv v f.scale) f.dataType).getD j 0 := by
    intro j hj
    rw [packManufacturerData, hsplit, List.foldl_append, List.foldl_cons]
    have hframe : ∀ g ∈ l2, List.lookup g.sensorName values ≠ none →
        2 + f.offset + j < 2 + g.offset ∨
        2 + g.offset + width g.dataType ≤ 2 + f.offset + j := by
      intro g hg _
      rcases hd2 g hg with hgl | hgr
      · exact Or.inl (by omega)
      · exact Or.inr (by omega)
    rw [pack_foldl_getD_frame values l2 _ _ hframe]
    simp only [hv]
    have hl1len : (l1.foldl (fun (buf : List ℕ) (field : DataFieldConfig) =>
        match List.lookup field.sensorName values with
        | none => buf
        | some v => setBytes buf (2 + field.offset)
            (packFieldBytes (fdiv v field.scale) field.dataType))
        ([format.companyId % 256, format.companyId / 256 % 256] ++
          List.replicate format.totalLength 0)).length = 2 + format.totalLength := by
      rw [pack_foldl_length]
      simp only [List.length_append, List.length_cons, List.length_nil, List.length_replicate]
    exact setBytes_getD_inside _ _ _ _ (by rw [hl1len]; omega) hj
  have hpj : ∀ j, j < (packFieldBytes (fdiv v f.scale) f.dataType).length →
      ((packManufacturerData values format).drop 2).getD (f.offset + j) 0
        = (packFieldBytes (fdiv v f.scale) f.dataType).getD j 0 := by
    intro j hj
    rw [getD_drop, show 2 + (f.offset + j) = 2 + f.offset + j by omega]
    exact hbytes j hj
  have hplen : ((packManufacturerData values format).drop 2).length = format.totalLength := by
    rw [List.length_drop, hlenbuf]
    omega
  clear hbytes hlenle hd2 hsplit hv hid hvals hdisj hnodup hscale hinv
  cases htype : f.dataType with
  | UINT8 =>
    rw [htype] at hfits hwid hpj
    simp only [fieldFits] at hfits
    obtain ⟨hden, hlo, hhi⟩ := hfits
    have hem8 : v.num.emod 256 = v.num % 256 := rfl
    have hem16 : v.num.emod 65536 = v.num % 65536 := rfl
    have hvz : (v.num : ℚ) = v := Rat.coe_int_num_of_den_eq_one hden
    have hscaled : fdiv v f.scale = ((v.num : ℤ) : ℚ) := by
      rw [hs1, fdiv, qdiv_eq, div_one]
      conv_lhs => rw [← hvz]
      exact fround_intCast v.num (by omega)
    rw [hscaled] at hpj
    have hb0 := hpj 0 (by simp [packFieldBytes])
    simp only [packFieldBytes, truncQ_intCast, Nat.add_zero, List.getD_cons_zero] at hb0
    simp only [parseValue, htype]
    rw [if_neg (by rw [hplen]; simp only [width] at hwid; omega),
      if_pos (by rw [hplen]; simp only [width] at hwid; omega), hb0, hs1,
      fmul, qmul_eq, mul_one]
    have hcast : (((v.num.emod 256).toNat : ℕ) : ℚ) = ((v.num : ℤ) : ℚ) := by
      exact_mod_cast congrArg (fun t : ℤ => (t : ℚ)) (by omega : ((v.num.emod 256).toNat : ℤ) = v.num)
    rw [hcast, fround_intCast v.num (by omega), hvz]
  | INT8 =>
    rw [htype] at hfits hwid hpj
    simp only [fieldFits] at hfits
    obtain ⟨hden, hlo, hhi⟩ := hfits
    have hem8 : v.num.emod 256 = v.num % 256 := rfl
    have hem16 : v.num.emod 65536 = v.num % 65536 := rfl
    have hvz : (v.num : ℚ) = v := Rat.coe_int_num_of_den_eq_one hden
    have hscaled : fdiv v f.scale = ((v.num : ℤ) : ℚ) := by
      rw [hs1, fdiv, qdiv_eq, div_one]
      conv_lhs => rw [← hvz]
      exact fround_intCast v.num (by omega)
    rw [hscaled] at hpj
    have hb0 := hpj 0 (by simp [packFieldBytes])
    simp only [packFieldBytes, truncQ_intCast, Nat.add_zero, List.getD_cons_zero] at hb0
    simp only [parseValue, htype]
    rw [if_neg (by rw [hplen]; simp only [width] at hwid; omega),
      if_pos (by rw [hplen]; simp only [width] at hwid; omega), hb0, hs1,
      fmul, qmul_eq, mul_one]
    have hti : toInt8 ((v.num.emod 256).toNat) = v.num := by
      simp only [toInt8]
      split <;> omega
    rw [hti, fround_intCast v.num (by omega), hvz]
  | UINT16_LE =>
    rw [htype] at hfits hwid hpj
    simp only [fieldFits] at hfits
    obtain ⟨hden, hlo, hhi⟩ := hfits
    have hem8 : v.num.emod 256 = v.num % 256 := rfl
    have hem16 : v.num.emod 65536 = v.num % 65536 := rfl
    have hvz : (v.num : ℚ) = v := Rat.coe_int_num_of_den_eq_one hden
    have hscaled : fdiv v f.scale = ((v.num : ℤ) : ℚ) := by
      rw [hs1, fdiv, qdiv_eq, div_one]
      conv_lhs => rw [← hvz]
      exact fround_intCast v.num (by omega)
    rw [hscaled] at hpj
    have hb0 := hpj 0 (by simp [packFieldBytes])
    have hb1 := hpj 1 (by simp [packFieldBytes])
    simp only [packFieldBytes, truncQ_intCast, Nat.add_zero, List.getD_cons_zero,
      List.getD_cons_succ] at hb0 hb1
    simp only [parseValue, htype]
    rw [if_neg (by rw [hplen]; simp only [width] at hwid; omega),
      if_pos (by rw [hplen]; simp only [width] at hwid; omega), hb0, hb1,
      le16_read _ _ (by omega)]
    have hword : (v.num.emod 65536).toNat % 256 +
        256 * ((v.num.emod 65536).toNat / 256) = v.num.toNat := by omega
    rw [hword, hs1, fmul, qmul_eq, mul_one]
    have hcast : ((v.num.toNat : ℕ) : ℚ) = ((v.num : ℤ) : ℚ) := by
      exact_mod_cast congrArg (fun t : ℤ => (t : ℚ)) (Int.toNat_of_nonneg hlo)
    rw [hcast, fround_intCast v.num (by omega), hvz]
  | UINT16_BE =>
    rw [htype] at hfits hwid hpj
    simp only [fieldFits] at hfits
    obtain ⟨hden, hlo, hhi⟩ := hfits
    have hem8 : v.num.emod 256 = v.num % 256 := rfl
    have hem16 : v.num.emod 65536 = v.num % 65536 := rfl
    have hvz : (v.num : ℚ) = v := Rat.coe_int_num_of_den_eq_one hden
    have hscaled : fdiv v f.scale = ((v.num : ℤ) : ℚ) := by
      rw [hs1, fdiv, qdiv_eq, div_one]
      conv_lhs => rw [← hvz]
      exact fround_intCast v.num (by omega)
    rw [hscaled] at hpj
    have hb0 := hpj 0 (by simp [packFieldBytes])
    have hb1 := hpj 1 (by simp [packFieldBytes])
    simp only [packFieldBytes, truncQ_intCast, Nat.add_zero, List.getD_cons_zero,
      List.getD_cons_succ] at hb0 hb1
    simp only [parseValue, htype]
    rw [if_neg (by rw [hplen]; simp only [width] at hwid; omega),
      if_pos (by rw [hplen]; simp only [width] at hwid; omega), hb0, hb1,
      shiftLeft_lor_eq_add 8 _ _ (by omega)]
    have hword : (v.num.emod 65536).toNat / 256 * 2 ^ 8 +
        (v.num.emod 65536).toNat % 256 = v.num.toNat := by omega
    rw [hword, hs1, fmul, qmul_eq, mul_one]
    have hcast : ((v.num.toNat : ℕ) : ℚ) = ((v.num : ℤ) : ℚ) := by
      exact_mod_cast congrArg (fun t : ℤ => (t : ℚ)) (Int.toNat_of_nonneg hlo)
    rw [hcast, fround_intCast v.num (by omega), hvz]
  | INT16_LE =>
    rw [htype] at hfits hwid hpj
    simp only [fieldFits] at hfits
    obtain ⟨hden, hlo, hhi⟩ := hfits
    have hem8 : v.num.emod 256 = v.num % 256 := rfl
    have hem16 : v.num.emod 65536 = v.num % 65536 := rfl
    have hvz : (v.num : ℚ) = v := Rat.coe_int_num_of_den_eq_one hden
    have hscaled : fdiv v f.scale = ((v.num : ℤ) : ℚ) := by
      rw [hs1, fdiv, qdiv_eq, div_one]
      conv_lhs => rw [← hvz]
      exact fround_intCast v.num (by omega)
    rw [hscaled] at hpj
    have hb0 := hpj 0 (by simp [packFieldBytes])
    have hb1 := hpj 1 (by simp [packFieldBytes])
    simp only [packFieldBytes, truncQ_intCast, Nat.add_zero, List.getD_cons_zero,
      List.getD_cons_succ] at hb0 hb1
    simp only [parseValue, htype]
    rw [if_neg (by rw [hplen]; simp only [width] at hwid; omega),
      if_pos (by rw [hplen]; simp only [width] at hwid; omega), hb0, hb1,
      le16_read _ _ (by omega)]
    have hti : toInt16 ((v.num.emod 65536).toNat % 256 +
        256 * ((v.num.emod 65536).toNat / 256)) = v.num := by
      simp only [toInt16]
      split <;> omega
    rw [hti, hs1, fmul, qmul_eq, mul_one, fround_intCast v.num (by omega), hvz]
  | INT16_BE =>
    rw [htype] at hfits hwid hpj
    simp only [fieldFits] at hfits
    obtain ⟨hden, hlo, hhi⟩ := hfits
    have hem8 : v.num.emod 256 = v.num % 256 := rfl
    have hem16 : v.num.emod 65536 = v.num % 65536 := rfl
    have hvz : (v.num : ℚ) = v := Rat.coe_int_num_of_den_eq_one hden
    have hscaled : fdiv v f.scale = ((v.num : ℤ) : ℚ) := by
      rw [hs1, fdiv, qdiv_eq, div_one]
      conv_lhs => rw [← hvz]
      exact fround_intCast v.num (by omega)
    rw [hscaled] at hpj
    have hb0 := hpj 0 (by simp [packFieldBytes])
    have hb1 := hpj 1 (by simp [packFieldBytes])
    simp only [packFieldBytes, truncQ_intCast, Nat.add_zero, List.getD_cons_zero,
      List.getD_cons_succ] at hb0 hb1
    simp only [parseValue, htype]
    rw [if_neg (by rw [hplen]; simp only [width] at hwid; omega),
      if_pos (by rw [hplen]; simp only [width] at hwid; omega), hb0, hb1,
      shiftLeft_lor_eq_add 8 _ _ (by omega)]
    have hti : toInt16 ((v.num.emod 65536).toNat / 256 * 2 ^ 8 +
        (v.num.emod 65536).toNat % 256) = v.num := by
      simp only [toInt16]
      split <;> omega
    rw [hti, hs1, fmul, qmul_eq, mul_one, fround_intCast v.num (by omega), hvz]
  | UINT32_LE =>
    rw [htype] at hfits
    simp only [fieldFits] at hfits
  | UINT32_BE =>
    rw [htype] at hfits
    simp only [fieldFits] at hfits
  | FLOAT_LE =>
    rw [htype] at hfits hwid hpj
    simp only [fieldFits] at hfits
    obtain ⟨hfix, hsmall⟩ := hfits
    rw [qabs_eq, qp2_eq] at hsmall
    have hscaled : fdiv v f.scale = v := by
      rw [hs1, fdiv, qdiv_eq, div_one, hfix]
    rw [hscaled] at hpj
    have hb0 := hpj 0 (by simp [packFieldBytes])
    have hb1 := hpj 1 (by simp [packFieldBytes])
    have hb2 := hpj 2 (by simp [packFieldBytes])
    have hb3 := hpj 3 (by simp [packFieldBytes])
    simp only [packFieldBytes, Nat.add_zero, List.getD_cons_zero,
      List.getD_cons_succ] at hb0 hb1 hb2 hb3
    simp only [parseValue, htype]
    rw [if_neg (by rw [hplen]; simp only [width] at hwid; omega),
      if_pos (by rw [hplen]; simp only [width] at hwid; omega), hb0, hb1, hb2, hb3,
      bytes4_reassemble (f32ToBits v), bitsToF32_mod32, bitsToF32_f32ToBits v hfix hsmall,
      hs1, fmul, qmul_eq, mul_one, hfix]
  | FLOAT_BE =>
    rw [htype] at hfits hwid hpj
    simp only [fieldFits] at hfits
    obtain ⟨hfix, hsmall⟩ := hfits
    rw [qabs_eq, qp2_eq] at hsmall
    have hscaled : fdiv v f.scale = v := by
      rw [hs1, fdiv, qdiv_eq, div_one, hfix]
    rw [hscaled] at hpj
    have hb0 := hpj 0 (by simp [packFieldBytes])
    have hb1 := hpj 1 (by simp [packFieldBytes])
    have hb2 := hpj 2 (by simp [packFieldBytes])
    have hb3 := hpj 3 (by simp [packFieldBytes])
    simp only [packFieldBytes, Nat.add_zero, List.getD_cons_zero,
      List.getD_cons_succ] at hb0 hb1 hb2 hb3
    simp only [parseValue, htype]
    rw [if_neg (by rw [hplen]; simp only [width] at hwid; omega),
      if_pos (by rw [hplen]; simp only [width] at hwid; omega), hb0, hb1, hb2, hb3,
      bytes4_reassemble (f32ToBits v), bitsToF32_mod32, bitsToF32_f32ToBits v hfix hsmall,
      hs1, fmul, qmul_eq, mul_one, hfix]

/-- A small all-scale-1 format exercising `c3_amended`: a `UINT8`, an
`INT16_BE` and a `FLOAT_LE` field. -/
def roundTripFormat : ManufacturerDataFormat :=
  { companyId := 0xFFFF
    dataFields := [
      { sensorName := "a", offset := 0, dataType := .UINT8, scale := 1 },
      { sensorName := "t", offset := 1, dataType := .INT16_BE, scale := 1 },
      { sensorName := "fl", offset := 3, dataType := .FLOAT_LE, scale := 1 }]
    totalLength := 7 }

/-- Witness for `c3_amended` on `roundTripFormat`. -/
theorem c3_amended_witness :
    List.lookup "t" (parseManufacturerData
      (packManufacturerData [("a", 87), ("t", -5), ("fl", fround (mkRat 9 10))]
        roundTripFormat) roundTripFormat)
      = List.lookup "t" [("a", 87), ("t", -5), ("fl", fround (mkRat 9 10))] ∧
    List.lookup "fl" (parseManufacturerData
      (packManufacturerData [("a", 87), ("t", -5), ("fl", fround (mkRat 9 10))]
        roundTripFormat) roundTripFormat)
      = List.lookup "fl" [("a", 87), ("t", -5), ("fl", fround (mkRat 9 10))] := by
  have h := c3_amended roundTripFormat [("a", 87), ("t", -5), ("fl", fround (mkRat 9 10))]
    (by decide) (by decide) (by decide) (by decide) (by decide)
    (by
      intro f hf
      fin_cases hf
      · exact ⟨87, by decide,
          show (87 : ℚ).den = 1 ∧ 0 ≤ (87 : ℚ).num ∧ (87 : ℚ).num < 256 by decide⟩
      · exact ⟨-5, by decide,
          show (-5 : ℚ).den = 1 ∧ -32768 ≤ (-5 : ℚ).num ∧ (-5 : ℚ).num < 32768 by decide⟩
      · exact ⟨fround (mkRat 9 10), by decide,
          show fround (fround (mkRat 9 10)) = fround (mkRat 9 10) ∧
            qabs (fround (mkRat 9 10)) < qp2 128 by decide⟩)
  exact ⟨h { sensorName := "t", offset := 1, dataType := .INT16_BE, scale := 1 } (by decide),
    h { sensorName := "fl", offset := 3, dataType := .FLOAT_LE, scale := 1 } (by decide)⟩

end BLEProfiles
